import Mathlib

/-!
Verification of the bulk batch-processing core of the travel-platform backend.

The definitions below are a shallow embedding of
`src/backend/src/agent/database/models.py`,
`src/backend/src/agent/database/operations.py`,
`src/backend/src/agent/bulk_api.py` (upload validation only) and
`src/backend/src/agent/bulk_processor.py` (the `process_batch` routine).

Conventions of the embedding:
* the SQLAlchemy session is a `DBState` value threaded explicitly;
* `datetime.utcnow()` is a `now : Nat` argument supplied by the caller;
* auto-increment primary keys are the `next_batch_id` / `next_article_id`
  counters of `DBState`;
* the random `uuid` part of a string batch id is an argument `bid`;
* operations that `raise ValueError` return `Except`; an error result
  models an exception raised before any mutation was committed;
* `UPDATE ... WHERE id = x` is a `List.map` that rewrites the rows whose
  key matches `x` and keeps every other row unchanged.
-/

namespace Travel

/-- Batch lifecycle statuses, from `models.BatchStatus`. -/
inductive BatchStatus where
  | pending
  | processing
  | completed
  | failed
  | cancelled
deriving DecidableEq, Repr

/-- String value of a batch status, as stored by the source enum. -/
def BatchStatus.value : BatchStatus → String
  | .pending => "pending"
  | .processing => "processing"
  | .completed => "completed"
  | .failed => "failed"
  | .cancelled => "cancelled"

/-- Article lifecycle statuses, from `models.ArticleStatus`. -/
inductive ArticleStatus where
  | queued
  | processing
  | completed
  | failed
  | skipped
deriving DecidableEq, Repr

/-- String value of an article status, as stored by the source enum. -/
def ArticleStatus.value : ArticleStatus → String
  | .queued => "queued"
  | .processing => "processing"
  | .completed => "completed"
  | .failed => "failed"
  | .skipped => "skipped"

/-- One row of `article_batches` (`models.ArticleBatch`). -/
structure ArticleBatch where
  id : Nat
  batch_id : String
  user_id : String
  name : String
  description : Option String
  uploaded_filename : Option String
  status : BatchStatus
  total_articles : Nat
  completed_articles : Nat
  failed_articles : Nat
  created_at : Option Nat
  started_at : Option Nat
  completed_at : Option Nat
  default_config : List (String × String)
deriving DecidableEq, Repr

/-- `ArticleBatch.is_complete` property from `models.py`. -/
def ArticleBatch.is_complete (b : ArticleBatch) : Bool :=
  b.status == .completed || b.status == .failed || b.status == .cancelled

/-- One row of `batch_articles` (`models.BatchArticle`). -/
structure BatchArticle where
  id : Nat
  batch_id : Nat
  topic : String
  keywords : String
  tone : String
  word_count : Nat
  custom_persona : String
  link_count : Nat
  use_inline_links : Nat
  use_apa_style : Nat
  status : ArticleStatus
  processing_attempts : Nat
  error_message : Option String
  generated_title : Option String
  generated_content : Option String
  generated_meta_description : Option String
  word_count_actual : Option Nat
  queued_at : Option Nat
  started_at : Option Nat
  completed_at : Option Nat
  processing_duration_seconds : Option Nat
  row_index : Nat
  custom_metadata : List (String × String)
deriving DecidableEq, Repr

/-- One row of `processing_logs` (`models.ProcessingLog`). -/
structure ProcessingLog where
  batch_id : Nat
  article_id : Option Nat
  timestamp : Nat
  level : String
  message : String
  details : List (String × String)
deriving DecidableEq, Repr

/-- The persistent store: the three tables and the auto-increment counters. -/
structure DBState where
  batches : List ArticleBatch
  articles : List BatchArticle
  logs : List ProcessingLog
  next_batch_id : Nat
  next_article_id : Nat
deriving DecidableEq, Repr

/-- The empty database. -/
def initState : DBState :=
  { batches := [], articles := [], logs := [], next_batch_id := 1, next_article_id := 1 }

/-- One entry of the `articles_data` list consumed by `create_batch`;
optional keys of the Python dict are `Option` fields. -/
structure ArticleData where
  topic : Option String := none
  keywords : Option String := none
  tone : Option String := none
  word_count : Option Nat := none
  custom_persona : Option String := none
  link_count : Option Nat := none
  use_inline_links : Option Bool := none
  use_apa_style : Option Bool := none
  custom_metadata : Option (List (String × String)) := none
deriving DecidableEq, Repr

/-- The generated-content dict handed to `update_article_status`;
`dict.get` on a possibly missing key yields an `Option`. -/
structure GeneratedContent where
  title : Option String := none
  content : Option String := none
  meta_description : Option String := none
  word_count : Option Nat := none
deriving DecidableEq, Repr

/-- Build one `BatchArticle` row from a spec dict, applying the `.get`
defaults of `create_batch` (operations.py lines 63-77); `idx` is the
zero-based enumeration index, so `row_index = idx + 1`. -/
def mkArticle (bnum aid now idx : Nat) (d : ArticleData) : BatchArticle :=
  { id := aid
    batch_id := bnum
    topic := d.topic.getD ""
    keywords := d.keywords.getD ""
    tone := d.tone.getD "professional"
    word_count := d.word_count.getD 1000
    custom_persona := d.custom_persona.getD ""
    link_count := d.link_count.getD 5
    use_inline_links := if d.use_inline_links.getD true then 1 else 0
    use_apa_style := if d.use_apa_style.getD false then 1 else 0
    status := .queued
    processing_attempts := 0
    error_message := none
    generated_title := none
    generated_content := none
    generated_meta_description := none
    word_count_actual := none
    queued_at := some now
    started_at := none
    completed_at := none
    processing_duration_seconds := none
    row_index := idx + 1
    custom_metadata := d.custom_metadata.getD [] }

/-- The article rows created by the `for idx, article_data in enumerate(...)`
loop of `create_batch`, with consecutive fresh ids. -/
def buildArticles (bnum fid now idx : Nat) : List ArticleData → List BatchArticle
  | [] => []
  | d :: rest => mkArticle bnum fid now idx d :: buildArticles bnum (fid + 1) now (idx + 1) rest

/-- `operations.create_batch`: persist the batch row (`status=pending`,
`total_articles = len(articles_data)`), one article row per spec
(`status=queued`, `row_index = idx+1`), and one INFO log entry.
Returns the new store and the created batch, as the source returns `batch`. -/
def create_batch (st : DBState) (now : Nat) (bid uid nm : String)
    (descr ufn : Option String) (cfg : List (String × String))
    (articles_data : List ArticleData) : DBState × ArticleBatch :=
  let b : ArticleBatch :=
    { id := st.next_batch_id
      batch_id := bid
      user_id := uid
      name := nm
      description := descr
      uploaded_filename := ufn
      status := .pending
      total_articles := articles_data.length
      completed_articles := 0
      failed_articles := 0
      created_at := some now
      started_at := none
      completed_at := none
      default_config := cfg }
  let arts := buildArticles st.next_batch_id st.next_article_id now 0 articles_data
  let lg : ProcessingLog :=
    { batch_id := st.next_batch_id
      article_id := none
      timestamp := now
      level := "INFO"
      message := "Batch created with " ++ toString articles_data.length ++ " articles"
      details := [("article_count", toString articles_data.length), ("user_id", uid)] }
  ({ batches := st.batches ++ [b]
     articles := st.articles ++ arts
     logs := st.logs ++ [lg]
     next_batch_id := st.next_batch_id + 1
     next_article_id := st.next_article_id + articles_data.length }, b)

/-- `operations.get_batch`: look a batch up by its string `batch_id`. -/
def get_batch (st : DBState) (bid : String) : Option ArticleBatch :=
  st.batches.find? (fun b => b.batch_id == bid)

/-- Look a batch up by its numeric primary key (`filter(ArticleBatch.id == ...)`). -/
def getBatchNum (st : DBState) (n : Nat) : Option ArticleBatch :=
  st.batches.find? (fun b => b.id == n)

/-- Look an article up by its numeric primary key. -/
def findArticle (st : DBState) (aid : Nat) : Option BatchArticle :=
  st.articles.find? (fun a => a.id == aid)

/-- First element of minimal `row_index`, the `ORDER BY row_index ... first()`
of the source query. -/
def minByRow : List BatchArticle → Option BatchArticle
  | [] => none
  | a :: rest =>
    match minByRow rest with
    | none => some a
    | some b => if a.row_index ≤ b.row_index then some a else some b

/-- `operations.get_next_queued_article`: the queued article of the batch
with the smallest `row_index`, if any. -/
def get_next_queued_article (st : DBState) (bnum : Nat) : Option BatchArticle :=
  minByRow (st.articles.filter (fun a => a.batch_id == bnum && a.status == .queued))

/-- `UPDATE batch_articles SET ... WHERE id = aid`. -/
def setArticleById (l : List BatchArticle) (aid : Nat) (f : BatchArticle → BatchArticle) :
    List BatchArticle :=
  l.map (fun a => if a.id = aid then f a else a)

/-- `UPDATE article_batches SET ... WHERE id = n`. -/
def setBatchById (l : List ArticleBatch) (n : Nat) (f : ArticleBatch → ArticleBatch) :
    List ArticleBatch :=
  l.map (fun b => if b.id = n then f b else b)

/-- The `ValueError`s raised by `update_article_status` / `update_batch_status`. -/
inductive OpError where
  | articleNotFound
  | batchNotFound
deriving DecidableEq, Repr

/-- Field updates of `update_article_status` on the article row
(operations.py lines 137-157). -/
def applyArticleFields (now : Nat) (s : ArticleStatus) (em : Option String)
    (g : Option GeneratedContent) (a : BatchArticle) : BatchArticle :=
  let a1 := { a with status := s }
  match s with
  | .processing =>
    { a1 with started_at := some now, processing_attempts := a1.processing_attempts + 1 }
  | .completed =>
    let a2 := { a1 with completed_at := some now }
    let a3 :=
      match a2.started_at with
      | some t => { a2 with processing_duration_seconds := some (now - t) }
      | none => a2
    match g with
    | some gc =>
      { a3 with generated_title := gc.title, generated_content := gc.content,
                generated_meta_description := gc.meta_description,
                word_count_actual := gc.word_count }
    | none => a3
  | .failed => { a1 with completed_at := some now, error_message := em }
  | _ => a1

/-- Counter updates of `update_article_status` on the batch row
(operations.py lines 159-164): the counter picked by the GIVEN status. -/
def bumpCounters (s : ArticleStatus) (b : ArticleBatch) : ArticleBatch :=
  if s = .completed then { b with completed_articles := b.completed_articles + 1 }
  else if s = .failed then { b with failed_articles := b.failed_articles + 1 }
  else b

/-- The completion check of `update_article_status` (operations.py lines
166-169): when `completed + failed >= total` the batch becomes `completed`,
with no look at its current status. -/
def checkComplete (now : Nat) (b : ArticleBatch) : ArticleBatch :=
  if b.completed_articles + b.failed_articles ≥ b.total_articles then
    { b with status := .completed, completed_at := some now }
  else b

/-- The log entry appended by `update_article_status` (operations.py 172-179). -/
def articleLog (now aid bnum : Nat) (s : ArticleStatus) (em : Option String) :
    ProcessingLog :=
  { batch_id := bnum
    article_id := some aid
    timestamp := now
    level := if s = .failed then "ERROR" else "INFO"
    message := "Article status changed to " ++ s.value
    details := match em with | some e => [("error", e)] | none => [] }

/-- `operations.update_article_status`. -/
def update_article_status (st : DBState) (now aid : Nat) (s : ArticleStatus)
    (em : Option String) (g : Option GeneratedContent) : Except OpError DBState :=
  match findArticle st aid with
  | none => .error .articleNotFound
  | some a0 =>
    match getBatchNum st a0.batch_id with
    | none => .error .batchNotFound
    | some _ =>
      .ok { st with
        articles := setArticleById st.articles aid (applyArticleFields now s em g)
        batches := setBatchById st.batches a0.batch_id
          (fun b => checkComplete now (bumpCounters s b))
        logs := st.logs ++ [articleLog now aid a0.batch_id s em] }

/-- Field updates of `update_batch_status` (operations.py lines 199-204):
the status is overwritten whatever it was. -/
def applyBatchStatusFields (now : Nat) (s : BatchStatus) (b : ArticleBatch) : ArticleBatch :=
  let b1 := { b with status := s }
  if s = .processing then { b1 with started_at := some now }
  else if s = .completed ∨ s = .failed ∨ s = .cancelled then
    { b1 with completed_at := some now }
  else b1

/-- The log entry appended by `update_batch_status` (operations.py 207-213). -/
def batchLog (now bnum : Nat) (s : BatchStatus) (em : Option String) :
    ProcessingLog :=
  { batch_id := bnum
    article_id := none
    timestamp := now
    level := if s = .failed then "ERROR" else "INFO"
    message := "Batch status changed to " ++ s.value
    details := match em with | some e => [("error", e)] | none => [] }

/-- `operations.update_batch_status`. -/
def update_batch_status (st : DBState) (now bnum : Nat) (s : BatchStatus)
    (em : Option String) : Except OpError DBState :=
  match getBatchNum st bnum with
  | none => .error .batchNotFound
  | some _ =>
    .ok { st with
      batches := setBatchById st.batches bnum (applyBatchStatusFields now s)
      logs := st.logs ++ [batchLog now bnum s em] }

/-- The `ValueError`s of `cancel_batch`, distinguished by their messages:
`"Batch ... not found"`, `"Unauthorized"`, `"Cannot cancel completed batch"`. -/
inductive CancelError where
  | notFound
  | unauthorized
  | invalidState
deriving DecidableEq, Repr

/-- The bulk `UPDATE` of `cancel_batch`: queued articles of the batch are
skipped, everything else is untouched. -/
def cancelArticleUpdate (bnum : Nat) (a : BatchArticle) : BatchArticle :=
  if a.batch_id = bnum ∧ a.status = .queued then { a with status := .skipped } else a

/-- The WARNING log entry appended by `cancel_batch` (operations.py 245-250). -/
def cancelLog (now bnum : Nat) (uid : String) : ProcessingLog :=
  { batch_id := bnum
    article_id := none
    timestamp := now
    level := "WARNING"
    message := "Batch cancelled by user"
    details := [("user_id", uid)] }

/-- `operations.cancel_batch`. -/
def cancel_batch (st : DBState) (now : Nat) (bid uid : String) :
    Except CancelError DBState :=
  match get_batch st bid with
  | none => .error .notFound
  | some b =>
    if b.user_id ≠ uid then .error .unauthorized
    else if b.is_complete then .error .invalidState
    else
      .ok { st with
        articles := st.articles.map (cancelArticleUpdate b.id)
        batches := setBatchById st.batches b.id
          (fun b0 => { b0 with status := .cancelled, completed_at := some now })
        logs := st.logs ++ [cancelLog now b.id uid] }

/-- Outcome of `BulkArticleProcessor.process_article`: the dict
`{success: true, ...}` or `{success: false, error}`. -/
inductive GenResult where
  | success (g : GeneratedContent)
  | failure (err : String)
deriving DecidableEq, Repr

/-- The item loop of `BulkArticleProcessor.process_batch` (bulk_processor.py
lines 223-269): claim the next queued article, mark it processing, call the
generation client, record the outcome; `fuel` bounds the `while True` loop. -/
def processLoop (gen : BatchArticle → GenResult) (now bnum : Nat) :
    Nat → DBState → Except OpError DBState
  | 0, st => .ok st
  | fuel + 1, st =>
    match get_next_queued_article st bnum with
    | none => .ok st
    | some a =>
      match update_article_status st now a.id .processing none none with
      | .error e => .error e
      | .ok st1 =>
        match gen a with
        | .success g =>
          match update_article_status st1 now a.id .completed none (some g) with
          | .error e => .error e
          | .ok st2 => processLoop gen now bnum fuel st2
        | .failure msg =>
          match update_article_status st1 now a.id .failed (some msg) none with
          | .error e => .error e
          | .ok st2 => processLoop gen now bnum fuel st2

/-- The body of the `try` block of `process_batch` (bulk_processor.py lines
216-281): unconditionally set the batch to `processing`, run the item loop,
then run the final completion check, whose `if/else` picks `completed` in
both branches (line 275). -/
def processBatchInner (gen : BatchArticle → GenResult) (now bnum fuel : Nat)
    (st : DBState) : Except OpError DBState :=
  match update_batch_status st now bnum .processing none with
  | .error e => .error e
  | .ok st1 =>
    match processLoop gen now bnum fuel st1 with
    | .error e => .error e
    | .ok st2 =>
      match getBatchNum st2 bnum with
      | none => .error .batchNotFound
      | some b =>
        if b.completed_articles + b.failed_articles ≥ b.total_articles then
          update_batch_status st2 now bnum .completed none
        else .ok st2

/-- `BulkArticleProcessor.process_batch`: look the batch up by string id
(return unchanged when absent, as the source only logs), run the inner
routine, and on an unhandled exception mark the batch `failed`
(the `except` clause, lines 283-288). -/
def process_batch (gen : BatchArticle → GenResult) (now fuel : Nat)
    (st : DBState) (bid : String) : DBState :=
  match get_batch st bid with
  | none => st
  | some b =>
    match processBatchInner gen now b.id fuel st with
    | .ok st2 => st2
    | .error _ =>
      match update_batch_status st now b.id .failed (some "worker error") with
      | .ok st2 => st2
      | .error _ => st

/-- The `HTTPException`s of the upload endpoint (bulk_api.py lines 75-85). -/
inductive UploadError where
  | noValidArticles
  | tooManyArticles
deriving DecidableEq, Repr

/-- The row filter of the upload endpoint (bulk_api.py line 73):
`df['topic'].notna() & (df['topic'] != '')`. -/
def validTopicCell : Option String → Bool
  | none => false
  | some t => t != ""

/-- The emptiness and size validation of the upload endpoint (bulk_api.py
lines 72-85), run BEFORE `create_batch` is called. -/
def validate_upload_rows (rows : List (Option String)) :
    Except UploadError (List (Option String)) :=
  let v := rows.filter validTopicCell
  if v.length = 0 then .error .noValidArticles
  else if v.length > 100 then .error .tooManyArticles
  else .ok v

/-!
The operation-level transition system. A `WorkerStep` is one call of the
store API as the worker, the upload endpoint or the cancellation endpoint
performs it: batch creation, a worker claim (`update_article_status` to
`processing`, on an article that is currently `queued`), a worker finish
(`update_article_status` to `completed`/`failed`, on an article that is
currently `processing`), or a successful `cancel_batch`. A full `Step` is a
`WorkerStep` or a direct `update_batch_status` call (which the worker uses
for `pending → processing` and the final transitions).
-/

/-- Store transitions performed by the worker, the assembler and the
cancellation path. -/
inductive WorkerStep : DBState → DBState → Prop where
  | create {st : DBState} (now : Nat) (bid uid nm : String)
      (descr ufn : Option String) (cfg : List (String × String))
      (data : List ArticleData) :
      WorkerStep st (create_batch st now bid uid nm descr ufn cfg data).1
  | claim {st st' : DBState} (now aid : Nat) (a : BatchArticle) :
      findArticle st aid = some a →
      a.status = .queued →
      update_article_status st now aid .processing none none = .ok st' →
      WorkerStep st st'
  | finishItem {st st' : DBState} (now aid : Nat) (s : ArticleStatus)
      (em : Option String) (g : Option GeneratedContent) (a : BatchArticle) :
      (s = .completed ∨ s = .failed) →
      findArticle st aid = some a →
      a.status = .processing →
      update_article_status st now aid s em g = .ok st' →
      WorkerStep st st'
  | cancel {st st' : DBState} (now : Nat) (bid uid : String) :
      cancel_batch st now bid uid = .ok st' →
      WorkerStep st st'

/-- Any store transition of the batch pipeline. -/
inductive Step : DBState → DBState → Prop where
  | worker {st st' : DBState} : WorkerStep st st' → Step st st'
  | setBatch {st st' : DBState} (now bnum : Nat) (s : BatchStatus)
      (em : Option String) :
      update_batch_status st now bnum s em = .ok st' →
      Step st st'

/-- States reachable from the empty store by pipeline operations. -/
inductive Reachable : DBState → Prop where
  | init : Reachable initState
  | step {st st' : DBState} : Reachable st → Step st st' → Reachable st'

/-! ### The store invariant -/

/-- Row membership test: article belongs to the batch with numeric id `bnum`. -/
def articleOfBatch (bnum : Nat) (a : BatchArticle) : Bool :=
  a.batch_id == bnum

/-- Article of the batch that has finished successfully. -/
def completedOf (bnum : Nat) (a : BatchArticle) : Bool :=
  a.batch_id == bnum && a.status == .completed

/-- Article of the batch that has finished with an error. -/
def failedOf (bnum : Nat) (a : BatchArticle) : Bool :=
  a.batch_id == bnum && a.status == .failed

/-- The batch counters agree with the actual article rows. -/
def CountsOk (st : DBState) (b : ArticleBatch) : Prop :=
  b.completed_articles = st.articles.countP (completedOf b.id) ∧
  b.failed_articles = st.articles.countP (failedOf b.id) ∧
  b.total_articles = st.articles.countP (articleOfBatch b.id)

/-- Structural store invariant: primary keys are unique and below the
auto-increment counters, foreign keys point below the batch counter, and
every batch's counters agree with its article rows. -/
def Inv (st : DBState) : Prop :=
  st.batches.Pairwise (fun x y => x.id ≠ y.id) ∧
  (∀ b ∈ st.batches, b.id < st.next_batch_id) ∧
  st.articles.Pairwise (fun x y => x.id ≠ y.id) ∧
  (∀ a ∈ st.articles, a.id < st.next_article_id) ∧
  (∀ a ∈ st.articles, a.batch_id < st.next_batch_id) ∧
  (∀ b ∈ st.batches, CountsOk st b)

/-! ### Generic list lemmas -/

/-- Two members of a list with pairwise-distinct keys and equal keys are equal. -/
theorem eq_of_pairwise_key {α κ : Type} (key : α → κ) :
    ∀ {l : List α}, l.Pairwise (fun x y => key x ≠ key y) →
      ∀ {a b : α}, a ∈ l → b ∈ l → key a = key b → a = b := by
  intro l
  induction l with
  | nil => intro _ a b ha; cases ha
  | cons x xs ih =>
    intro h a b ha hb hk
    rcases List.pairwise_cons.mp h with ⟨hx, hxs⟩
    rcases List.mem_cons.mp ha with rfl | ha' <;> rcases List.mem_cons.mp hb with rfl | hb'
    · rfl
    · exact absurd hk (hx b hb')
    · exact absurd hk.symm (hx a ha')
    · exact ih hxs ha' hb' hk

/-- Counting two disjoint sub-populations is at most counting the population. -/
theorem countP_two_le {α : Type} (p q r : α → Bool) :
    ∀ l : List α,
      (∀ a ∈ l, ¬(p a = true ∧ q a = true)) →
      (∀ a ∈ l, p a = true → r a = true) →
      (∀ a ∈ l, q a = true → r a = true) →
      l.countP p + l.countP q ≤ l.countP r := by
  intro l
  induction l with
  | nil => intro _ _ _; simp
  | cons x xs ih =>
    intro hpq hpr hqr
    have htail := ih (fun a ha => hpq a (List.mem_cons_of_mem x ha))
      (fun a ha => hpr a (List.mem_cons_of_mem x ha))
      (fun a ha => hqr a (List.mem_cons_of_mem x ha))
    have hx1 := hpq x (List.mem_cons_self x xs)
    have hx2 := hpr x (List.mem_cons_self x xs)
    have hx3 := hqr x (List.mem_cons_self x xs)
    simp only [List.countP_cons]
    have hhead : ((if p x = true then 1 else 0) + (if q x = true then 1 else 0) : Nat) ≤
        (if r x = true then 1 else 0) := by
      by_cases h1 : p x = true
      · have h3 := hx2 h1
        have h2 : ¬q x = true := fun hq => hx1 ⟨h1, hq⟩
        rw [if_pos h1, if_neg h2, if_pos h3]
      · by_cases h2 : q x = true
        · have h3 := hx3 h2
          rw [if_neg h1, if_pos h2, if_pos h3]
        · rw [if_neg h1, if_neg h2]
          omega
    omega

/-- When the population count is no larger than the sum of two disjoint
sub-population counts, every member of the population lies in one of them. -/
theorem forall_mem_of_countP_ge {α : Type} (p q r : α → Bool) :
    ∀ l : List α,
      (∀ a ∈ l, ¬(p a = true ∧ q a = true)) →
      (∀ a ∈ l, p a = true → r a = true) →
      (∀ a ∈ l, q a = true → r a = true) →
      l.countP r ≤ l.countP p + l.countP q →
      ∀ a ∈ l, r a = true → p a = true ∨ q a = true := by
  intro l
  induction l with
  | nil => intro _ _ _ _ a ha; cases ha
  | cons x xs ih =>
    intro hpq hpr hqr hge a ha har
    have hpq' := fun a ha => hpq a (List.mem_cons_of_mem x ha)
    have hpr' := fun a ha => hpr a (List.mem_cons_of_mem x ha)
    have hqr' := fun a ha => hqr a (List.mem_cons_of_mem x ha)
    have htail := countP_two_le p q r xs hpq' hpr' hqr'
    have hx1 := hpq x (List.mem_cons_self x xs)
    have hx2 := hpr x (List.mem_cons_self x xs)
    have hx3 := hqr x (List.mem_cons_self x xs)
    simp only [List.countP_cons] at hge
    have hhead : ((if p x = true then 1 else 0) + (if q x = true then 1 else 0) : Nat) ≤
        (if r x = true then 1 else 0) := by
      by_cases h1 : p x = true
      · have h3 := hx2 h1
        have h2 : ¬q x = true := fun hq => hx1 ⟨h1, hq⟩
        rw [if_pos h1, if_neg h2, if_pos h3]
      · by_cases h2 : q x = true
        · have h3 := hx3 h2
          rw [if_neg h1, if_pos h2, if_pos h3]
        · rw [if_neg h1, if_neg h2]
          omega
    rcases List.mem_cons.mp ha with rfl | ha'
    · by_cases h1 : p a = true
      · exact Or.inl h1
      by_cases h2 : q a = true
      · exact Or.inr h2
      exfalso
      rw [if_pos har, if_neg h1, if_neg h2] at hge
      omega
    · exact ih hpq' hpr' hqr' (by omega) a ha' har

/-! ### Field-preservation facts of the row-update functions -/

/-- `applyArticleFields` never touches the primary key. -/
theorem applyArticleFields_id (now : Nat) (s : ArticleStatus) (em : Option String)
    (g : Option GeneratedContent) (a : BatchArticle) :
    (applyArticleFields now s em g a).id = a.id := by
  unfold applyArticleFields
  cases s <;> dsimp only <;> first
    | rfl
    | (cases a.started_at <;> cases g <;> rfl)

/-- `applyArticleFields` never touches the foreign key. -/
theorem applyArticleFields_batch_id (now : Nat) (s : ArticleStatus) (em : Option String)
    (g : Option GeneratedContent) (a : BatchArticle) :
    (applyArticleFields now s em g a).batch_id = a.batch_id := by
  unfold applyArticleFields
  cases s <;> dsimp only <;> first
    | rfl
    | (cases a.started_at <;> cases g <;> rfl)

/-- `applyArticleFields` never touches `row_index`. -/
theorem applyArticleFields_row_index (now : Nat) (s : ArticleStatus) (em : Option String)
    (g : Option GeneratedContent) (a : BatchArticle) :
    (applyArticleFields now s em g a).row_index = a.row_index := by
  unfold applyArticleFields
  cases s <;> dsimp only <;> first
    | rfl
    | (cases a.started_at <;> cases g <;> rfl)

/-- `applyArticleFields` always installs the requested status. -/
theorem applyArticleFields_status (now : Nat) (s : ArticleStatus) (em : Option String)
    (g : Option GeneratedContent) (a : BatchArticle) :
    (applyArticleFields now s em g a).status = s := by
  unfold applyArticleFields
  cases s <;> dsimp only <;> first
    | rfl
    | (cases a.started_at <;> cases g <;> rfl)

/-- `bumpCounters` only changes the two counters. -/
theorem bumpCounters_frame (s : ArticleStatus) (b : ArticleBatch) :
    (bumpCounters s b).id = b.id ∧ (bumpCounters s b).status = b.status ∧
    (bumpCounters s b).total_articles = b.total_articles := by
  unfold bumpCounters
  split <;> try split
  all_goals exact ⟨rfl, rfl, rfl⟩

/-- Counter arithmetic of `bumpCounters`. -/
theorem bumpCounters_counts (s : ArticleStatus) (b : ArticleBatch) :
    (bumpCounters s b).completed_articles =
      b.completed_articles + (if s = .completed then 1 else 0) ∧
    (bumpCounters s b).failed_articles =
      b.failed_articles + (if s = .failed then 1 else 0) := by
  unfold bumpCounters
  cases s <;> simp

/-- `checkComplete` only changes `status` and `completed_at`. -/
theorem checkComplete_frame (now : Nat) (b : ArticleBatch) :
    (checkComplete now b).id = b.id ∧
    (checkComplete now b).completed_articles = b.completed_articles ∧
    (checkComplete now b).failed_articles = b.failed_articles ∧
    (checkComplete now b).total_articles = b.total_articles := by
  unfold checkComplete
  split <;> exact ⟨rfl, rfl, rfl, rfl⟩

/-- `applyBatchStatusFields` keeps the key, the counters and the total. -/
theorem applyBatchStatusFields_frame (now : Nat) (s : BatchStatus) (b : ArticleBatch) :
    (applyBatchStatusFields now s b).id = b.id ∧
    (applyBatchStatusFields now s b).completed_articles = b.completed_articles ∧
    (applyBatchStatusFields now s b).failed_articles = b.failed_articles ∧
    (applyBatchStatusFields now s b).total_articles = b.total_articles := by
  unfold applyBatchStatusFields
  split <;> try split
  all_goals exact ⟨rfl, rfl, rfl, rfl⟩

/-- `applyBatchStatusFields` always installs the requested status. -/
theorem applyBatchStatusFields_status (now : Nat) (s : BatchStatus) (b : ArticleBatch) :
    (applyBatchStatusFields now s b).status = s := by
  unfold applyBatchStatusFields
  split <;> try split
  all_goals rfl

/-- `cancelArticleUpdate` keeps key, foreign key and row index. -/
theorem cancelArticleUpdate_frame (bnum : Nat) (a : BatchArticle) :
    (cancelArticleUpdate bnum a).id = a.id ∧
    (cancelArticleUpdate bnum a).batch_id = a.batch_id ∧
    (cancelArticleUpdate bnum a).row_index = a.row_index := by
  unfold cancelArticleUpdate
  split <;> exact ⟨rfl, rfl, rfl⟩

/-! ### `UPDATE ... WHERE` lemmas -/

/-- An update keyed on an id that occurs nowhere is a no-op. -/
theorem setArticleById_eq_self {l : List BatchArticle} {aid : Nat}
    (f : BatchArticle → BatchArticle) (h : ∀ a ∈ l, a.id ≠ aid) :
    setArticleById l aid f = l := by
  induction l with
  | nil => rfl
  | cons x xs ih =>
    simp only [setArticleById, List.map_cons] at *
    rw [if_neg (h x (List.mem_cons_self x xs)), ih (fun a ha => h a (List.mem_cons_of_mem x ha))]

/-- Count bookkeeping for a single-row update when primary keys are unique:
the count changes exactly by the contribution change of the touched row. -/
theorem countP_setArticleById {l : List BatchArticle} {a0 : BatchArticle}
    (f : BatchArticle → BatchArticle) (p : BatchArticle → Bool)
    (h0 : a0 ∈ l) (hp : l.Pairwise (fun x y => x.id ≠ y.id)) :
    (setArticleById l a0.id f).countP p + (if p a0 = true then 1 else 0) =
      l.countP p + (if p (f a0) = true then 1 else 0) := by
  induction l with
  | nil => cases h0
  | cons x xs ih =>
    rcases List.pairwise_cons.mp hp with ⟨hx, hxs⟩
    by_cases hid : x.id = a0.id
    · have hxa : x = a0 := by
        rcases List.mem_cons.mp h0 with rfl | h0'
        · rfl
        · exact absurd hid (hx a0 h0')
      subst hxa
      have htail : setArticleById xs x.id f = xs :=
        setArticleById_eq_self f (fun a ha => fun he => (hx a ha) he.symm)
      simp only [setArticleById, List.map_cons] at *
      rw [if_pos trivial, htail, List.countP_cons, List.countP_cons]
      omega
    · have h0' : a0 ∈ xs := by
        rcases List.mem_cons.mp h0 with rfl | h0'
        · exact absurd rfl hid
        · exact h0'
      have := ih h0' hxs
      simp only [setArticleById, List.map_cons, if_neg hid, List.countP_cons] at *
      omega

/-- A keyed map preserving the key preserves key-distinctness. -/
theorem pairwise_key_map {α : Type} (key : α → Nat) (g : α → α) (l : List α)
    (hg : ∀ a ∈ l, key (g a) = key a)
    (h : l.Pairwise (fun x y => key x ≠ key y)) :
    (l.map g).Pairwise (fun x y => key x ≠ key y) := by
  rw [List.pairwise_map]
  refine List.Pairwise.imp_of_mem ?_ h
  intro a b ha hb hne
  rw [hg a ha, hg b hb]
  exact hne

/-! ### Lookup lemmas -/

/-- Unpack a successful article lookup. -/
theorem findArticle_mem_id {st : DBState} {aid : Nat} {a : BatchArticle}
    (h : findArticle st aid = some a) : a ∈ st.articles ∧ a.id = aid := by
  refine ⟨List.mem_of_find?_eq_some h, ?_⟩
  have := List.find?_some h
  simpa using this

/-- Unpack a successful numeric batch lookup. -/
theorem getBatchNum_mem_id {st : DBState} {n : Nat} {b : ArticleBatch}
    (h : getBatchNum st n = some b) : b ∈ st.batches ∧ b.id = n := by
  refine ⟨List.mem_of_find?_eq_some h, ?_⟩
  have := List.find?_some h
  simpa using this

/-- Unpack a successful string batch lookup. -/
theorem get_batch_mem_id {st : DBState} {bid : String} {b : ArticleBatch}
    (h : get_batch st bid = some b) : b ∈ st.batches ∧ b.batch_id = bid := by
  refine ⟨List.mem_of_find?_eq_some h, ?_⟩
  have := List.find?_some h
  simpa using this

/-- A keyed single-row update commutes with lookup by the same kind of key. -/
theorem find?_id_map {l : List ArticleBatch} {n : Nat}
    (g : ArticleBatch → ArticleBatch) (hg : ∀ b, (g b).id = b.id) :
    List.find? (fun b => b.id == n) (l.map g) =
      (List.find? (fun b => b.id == n) l).map g := by
  rw [List.find?_map]
  have hpred : ((fun b : ArticleBatch => b.id == n) ∘ g) =
      (fun b : ArticleBatch => b.id == n) := by
    funext b
    simp [Function.comp, hg]
  rw [hpred]

/-! ### Inversion lemmas for the store operations -/

/-- Shape of a successful `update_article_status` call. -/
theorem update_article_status_ok {st : DBState} {now aid : Nat} {s : ArticleStatus}
    {em : Option String} {g : Option GeneratedContent} {st' : DBState}
    (h : update_article_status st now aid s em g = .ok st') :
    ∃ a0 b0, findArticle st aid = some a0 ∧ getBatchNum st a0.batch_id = some b0 ∧
      st' = { st with
        articles := setArticleById st.articles aid (applyArticleFields now s em g)
        batches := setBatchById st.batches a0.batch_id
          (fun b => checkComplete now (bumpCounters s b))
        logs := st.logs ++ [articleLog now aid a0.batch_id s em] } := by
  cases hfa : findArticle st aid with
  | none => simp [update_article_status, hfa] at h
  | some a0 =>
    cases hb : getBatchNum st a0.batch_id with
    | none => simp [update_article_status, hfa, hb] at h
    | some b0 =>
      simp only [update_article_status, hfa, hb] at h
      exact ⟨a0, b0, rfl, hb, (Except.ok.inj h).symm⟩

/-- Shape of a successful `update_batch_status` call. -/
theorem update_batch_status_ok {st : DBState} {now bnum : Nat} {s : BatchStatus}
    {em : Option String} {st' : DBState}
    (h : update_batch_status st now bnum s em = .ok st') :
    ∃ b0, getBatchNum st bnum = some b0 ∧
      st' = { st with
        batches := setBatchById st.batches bnum (applyBatchStatusFields now s)
        logs := st.logs ++ [batchLog now bnum s em] } := by
  cases hb : getBatchNum st bnum with
  | none => simp [update_batch_status, hb] at h
  | some b0 =>
    simp only [update_batch_status, hb] at h
    exact ⟨b0, rfl, (Except.ok.inj h).symm⟩

/-- Shape of a successful `cancel_batch` call: the batch exists, is owned by
the caller, is not in a terminal state, and the three table writes happen. -/
theorem cancel_batch_ok {st : DBState} {now : Nat} {bid uid : String} {st' : DBState}
    (h : cancel_batch st now bid uid = .ok st') :
    ∃ b, get_batch st bid = some b ∧ b.user_id = uid ∧ b.is_complete = false ∧
      st' = { st with
        articles := st.articles.map (cancelArticleUpdate b.id)
        batches := setBatchById st.batches b.id
          (fun b0 => { b0 with status := .cancelled, completed_at := some now })
        logs := st.logs ++ [cancelLog now b.id uid] } := by
  cases hb : get_batch st bid with
  | none => simp [cancel_batch, hb] at h
  | some b =>
    simp only [cancel_batch, hb] at h
    by_cases hu : b.user_id ≠ uid
    · rw [if_pos hu] at h; exact Except.noConfusion h
    · rw [if_neg hu] at h
      by_cases hc : b.is_complete
      · rw [if_pos hc] at h; exact Except.noConfusion h
      · rw [if_neg hc] at h
        exact ⟨b, rfl, not_not.mp hu, Bool.not_eq_true _ ▸ hc, (Except.ok.inj h).symm⟩

/-! ### Invariant preservation -/

/-- A worker-discipline `update_article_status` call (claiming a queued
article, or finishing a processing one) preserves the store invariant. -/
theorem inv_update_article {st st' : DBState} {now aid : Nat} {s : ArticleStatus}
    {em : Option String} {g : Option GeneratedContent} {a0 : BatchArticle}
    (hInv : Inv st)
    (ha : findArticle st aid = some a0)
    (hcase : (s = .processing ∧ a0.status = .queued) ∨
      ((s = .completed ∨ s = .failed) ∧ a0.status = .processing))
    (h : update_article_status st now aid s em g = .ok st') :
    Inv st' := by
  obtain ⟨a1, b0, ha1, hb0, rfl⟩ := update_article_status_ok h
  rw [ha] at ha1
  obtain rfl := Option.some.inj ha1
  obtain ⟨hBpw, hBlt, hApw, hAlt, hAblt, hCnt⟩ := hInv
  obtain ⟨ha0mem, ha0id⟩ := findArticle_mem_id ha
  subst ha0id
  have hFid : ∀ a, (applyArticleFields now s em g a).id = a.id :=
    fun a => applyArticleFields_id now s em g a
  have hFbid : ∀ a, (applyArticleFields now s em g a).batch_id = a.batch_id :=
    fun a => applyArticleFields_batch_id now s em g a
  have hGid : ∀ b : ArticleBatch,
      ((fun b => if b.id = a0.batch_id then checkComplete now (bumpCounters s b) else b) b).id
        = b.id := by
    intro b
    dsimp only
    by_cases hx : b.id = a0.batch_id
    · rw [if_pos hx, (checkComplete_frame now _).1, (bumpCounters_frame s b).1]
    · rw [if_neg hx]
  have hMid : ∀ a : BatchArticle,
      ((fun a => if a.id = a0.id then applyArticleFields now s em g a else a) a).id = a.id := by
    intro a
    dsimp only
    by_cases hx : a.id = a0.id
    · rw [if_pos hx, hFid]
    · rw [if_neg hx]
  have hMbid : ∀ a : BatchArticle,
      ((fun a => if a.id = a0.id then applyArticleFields now s em g a else a) a).batch_id
        = a.batch_id := by
    intro a
    dsimp only
    by_cases hx : a.id = a0.id
    · rw [if_pos hx, hFbid]
    · rw [if_neg hx]
  have hstat0 : a0.status = .queued ∨ a0.status = .processing := by
    rcases hcase with ⟨_, hq⟩ | ⟨_, hq⟩
    · exact Or.inl hq
    · exact Or.inr hq
  refine ⟨?_, ?_, ?_, ?_, ?_, ?_⟩
  · exact pairwise_key_map ArticleBatch.id _ _ (fun b _ => hGid b) hBpw
  · intro b' hb'
    obtain ⟨b, hbmem, rfl⟩ := List.mem_map.mp hb'
    show _ < st.next_batch_id
    rw [hGid b]
    exact hBlt b hbmem
  · exact pairwise_key_map BatchArticle.id _ _ (fun a _ => hMid a) hApw
  · intro a' ha'
    obtain ⟨a, hamem, rfl⟩ := List.mem_map.mp ha'
    show _ < st.next_article_id
    rw [hMid a]
    exact hAlt a hamem
  · intro a' ha'
    obtain ⟨a, hamem, rfl⟩ := List.mem_map.mp ha'
    show _ < st.next_batch_id
    rw [hMbid a]
    exact hAblt a hamem
  · intro b' hb'
    obtain ⟨b, hbmem, rfl⟩ := List.mem_map.mp hb'
    obtain ⟨hc1, hc2, hc3⟩ := hCnt b hbmem
    have hcount := fun p => countP_setArticleById
      (applyArticleFields now s em g) p ha0mem hApw
    have hFstat : (applyArticleFields now s em g a0).status = s :=
      applyArticleFields_status now s em g a0
    by_cases hx : b.id = a0.batch_id
    · have hcc := hcount (completedOf b.id)
      have hcf := hcount (failedOf b.id)
      have hct := hcount (articleOfBatch b.id)
      have hpa0c : completedOf b.id a0 = false := by
        rcases hstat0 with hq | hq <;> simp [completedOf, hq]
      have hpa0f : failedOf b.id a0 = false := by
        rcases hstat0 with hq | hq <;> simp [failedOf, hq]
      have hpa0t : articleOfBatch b.id a0 = true := by
        simp [articleOfBatch, hx]
      have hpFc : completedOf b.id (applyArticleFields now s em g a0) =
          (s == .completed) := by
        simp [completedOf, hFstat, hFbid, hx]
      have hpFf : failedOf b.id (applyArticleFields now s em g a0) =
          (s == .failed) := by
        simp [failedOf, hFstat, hFbid, hx]
      have hpFt : articleOfBatch b.id (applyArticleFields now s em g a0) = true := by
        simp [articleOfBatch, hFbid, hx]
      rw [hpa0c, hpFc] at hcc
      rw [hpa0f, hpFf] at hcf
      rw [hpa0t, hpFt] at hct
      simp only [Bool.false_eq_true, if_false, if_true, beq_iff_eq,
        Nat.add_zero] at hcc hcf hct
      rw [if_pos hx]
      obtain ⟨hk1, hk2, hk3⟩ := checkComplete_frame now (bumpCounters s b)
      obtain ⟨hm1, hm2⟩ := bumpCounters_counts s b
      refine ⟨?_, ?_, ?_⟩
      · show (checkComplete now (bumpCounters s b)).completed_articles = _
        dsimp only
        rw [hk1, (bumpCounters_frame s b).1, hk2, hm1, hc1]
        rcases eq_or_ne s ArticleStatus.completed with hs | hs
        · rw [if_pos hs] at hcc ⊢
          omega
        · rw [if_neg hs] at hcc ⊢
          omega
      · show (checkComplete now (bumpCounters s b)).failed_articles = _
        dsimp only
        rw [hk1, (bumpCounters_frame s b).1,
          (checkComplete_frame now (bumpCounters s b)).2.2.1, hm2, hc2]
        rcases eq_or_ne s ArticleStatus.failed with hs | hs
        · rw [if_pos hs] at hcf ⊢
          omega
        · rw [if_neg hs] at hcf ⊢
          omega
      · show (checkComplete now (bumpCounters s b)).total_articles = _
        dsimp only
        rw [hk1, (bumpCounters_frame s b).1,
          (checkComplete_frame now (bumpCounters s b)).2.2.2,
          (bumpCounters_frame s b).2.2, hc3]
        omega
    · have hcc := hcount (completedOf b.id)
      have hcf := hcount (failedOf b.id)
      have hct := hcount (articleOfBatch b.id)
      have hne : (a0.batch_id == b.id) = false := by
        simp
        exact fun hh => hx hh.symm
      have hpa0c : completedOf b.id a0 = false := by
        simp [completedOf, hne]
      have hpa0f : failedOf b.id a0 = false := by
        simp [failedOf, hne]
      have hpa0t : articleOfBatch b.id a0 = false := by
        simp [articleOfBatch, hne]
      have hpFc : completedOf b.id (applyArticleFields now s em g a0) = false := by
        simp [completedOf, hFbid, hne]
      have hpFf : failedOf b.id (applyArticleFields now s em g a0) = false := by
        simp [failedOf, hFbid, hne]
      have hpFt : articleOfBatch b.id (applyArticleFields now s em g a0) = false := by
        simp [articleOfBatch, hFbid, hne]
      rw [hpa0c, hpFc] at hcc
      rw [hpa0f, hpFf] at hcf
      rw [hpa0t, hpFt] at hct
      rw [if_neg hx]
      refine ⟨?_, ?_, ?_⟩
      · dsimp only
        rw [hc1]; omega
      · dsimp only
        rw [hc2]; omega
      · dsimp only
        rw [hc3]; omega

/-- `update_batch_status` preserves the store invariant: it touches only
status and timestamp fields of one batch row. -/
theorem inv_update_batch {st st' : DBState} {now bnum : Nat} {s : BatchStatus}
    {em : Option String} (hInv : Inv st)
    (h : update_batch_status st now bnum s em = .ok st') : Inv st' := by
  obtain ⟨b0, hb0, rfl⟩ := update_batch_status_ok h
  obtain ⟨hBpw, hBlt, hApw, hAlt, hAblt, hCnt⟩ := hInv
  have hGid : ∀ b : ArticleBatch,
      ((fun b => if b.id = bnum then applyBatchStatusFields now s b else b) b).id = b.id := by
    intro b
    dsimp only
    by_cases hx : b.id = bnum
    · rw [if_pos hx, (applyBatchStatusFields_frame now s b).1]
    · rw [if_neg hx]
  refine ⟨pairwise_key_map ArticleBatch.id _ _ (fun b _ => hGid b) hBpw, ?_,
    hApw, hAlt, hAblt, ?_⟩
  · intro b' hb'
    obtain ⟨b, hbmem, rfl⟩ := List.mem_map.mp hb'
    show _ < st.next_batch_id
    rw [hGid b]
    exact hBlt b hbmem
  · intro b' hb'
    obtain ⟨b, hbmem, rfl⟩ := List.mem_map.mp hb'
    obtain ⟨hc1, hc2, hc3⟩ := hCnt b hbmem
    by_cases hx : b.id = bnum
    · rw [if_pos hx]
      obtain ⟨hf1, hf2, hf3, hf4⟩ := applyBatchStatusFields_frame now s b
      exact ⟨by rw [hf2, hf1]; exact hc1, by rw [hf3, hf1]; exact hc2,
        by rw [hf4, hf1]; exact hc3⟩
    · rw [if_neg hx]
      exact ⟨hc1, hc2, hc3⟩

/-- `cancel_batch` preserves the store invariant: skipping queued articles
changes neither the completed/failed populations nor batch membership. -/
theorem inv_cancel {st st' : DBState} {now : Nat} {bid uid : String}
    (hInv : Inv st) (h : cancel_batch st now bid uid = .ok st') : Inv st' := by
  obtain ⟨b, hb, huid, hcomp, rfl⟩ := cancel_batch_ok h
  obtain ⟨hBpw, hBlt, hApw, hAlt, hAblt, hCnt⟩ := hInv
  have hGid : ∀ b0 : ArticleBatch,
      ((fun b0 => if b0.id = b.id then
        { b0 with status := BatchStatus.cancelled, completed_at := some now }
        else b0) b0).id = b0.id := by
    intro b0
    by_cases hx : b0.id = b.id <;> simp [hx]
  have hMid : ∀ a, (cancelArticleUpdate b.id a).id = a.id :=
    fun a => (cancelArticleUpdate_frame b.id a).1
  have hMbid : ∀ a, (cancelArticleUpdate b.id a).batch_id = a.batch_id :=
    fun a => (cancelArticleUpdate_frame b.id a).2.1
  have hpc : ∀ (n : Nat) a, completedOf n (cancelArticleUpdate b.id a) = completedOf n a := by
    intro n a
    unfold cancelArticleUpdate
    split
    · next hcond =>
      simp [completedOf, hcond.2]
      rw [show (ArticleStatus.skipped == ArticleStatus.completed) = false from rfl,
        show (ArticleStatus.queued == ArticleStatus.completed) = false from rfl]
    · rfl
  have hpf : ∀ (n : Nat) a, failedOf n (cancelArticleUpdate b.id a) = failedOf n a := by
    intro n a
    unfold cancelArticleUpdate
    split
    · next hcond =>
      simp [failedOf, hcond.2]
      rw [show (ArticleStatus.skipped == ArticleStatus.failed) = false from rfl,
        show (ArticleStatus.queued == ArticleStatus.failed) = false from rfl]
    · rfl
  have hpt : ∀ (n : Nat) a, articleOfBatch n (cancelArticleUpdate b.id a) = articleOfBatch n a := by
    intro n a
    unfold articleOfBatch
    rw [hMbid a]
  have hcountmap : ∀ (p : BatchArticle → Bool),
      (∀ a, p (cancelArticleUpdate b.id a) = p a) →
      (st.articles.map (cancelArticleUpdate b.id)).countP p = st.articles.countP p := by
    intro p hpres
    rw [List.countP_map]
    exact List.countP_congr (fun a _ => by rw [Function.comp_apply, hpres a])
  refine ⟨pairwise_key_map ArticleBatch.id _ _ (fun b0 _ => hGid b0) hBpw, ?_,
    pairwise_key_map BatchArticle.id _ _ (fun a _ => hMid a) hApw, ?_, ?_, ?_⟩
  · intro b' hb'
    obtain ⟨b0, hbmem, rfl⟩ := List.mem_map.mp hb'
    show _ < st.next_batch_id
    rw [hGid b0]
    exact hBlt b0 hbmem
  · intro a' ha'
    obtain ⟨a, hamem, rfl⟩ := List.mem_map.mp ha'
    show _ < st.next_article_id
    rw [hMid a]
    exact hAlt a hamem
  · intro a' ha'
    obtain ⟨a, hamem, rfl⟩ := List.mem_map.mp ha'
    show _ < st.next_batch_id
    rw [hMbid a]
    exact hAblt a hamem
  · intro b' hb'
    obtain ⟨b0, hbmem, rfl⟩ := List.mem_map.mp hb'
    obtain ⟨hc1, hc2, hc3⟩ := hCnt b0 hbmem
    by_cases hx : b0.id = b.id
    · rw [if_pos hx]
      exact ⟨by rw [hcountmap _ (hpc b0.id)]; exact hc1,
        by rw [hcountmap _ (hpf b0.id)]; exact hc2,
        by rw [hcountmap _ (hpt b0.id)]; exact hc3⟩
    · rw [if_neg hx]
      exact ⟨by rw [hcountmap _ (hpc b0.id)]; exact hc1,
        by rw [hcountmap _ (hpf b0.id)]; exact hc2,
        by rw [hcountmap _ (hpt b0.id)]; exact hc3⟩

/-! ### Facts about `buildArticles` -/

/-- One article row is created per spec. -/
theorem buildArticles_length :
    ∀ (data : List ArticleData) (bnum fid now idx : Nat),
      (buildArticles bnum fid now idx data).length = data.length := by
  intro data
  induction data with
  | nil => intro bnum fid now idx; rfl
  | cons d rest ih =>
    intro bnum fid now idx
    simp [buildArticles, ih]

/-- Rows created by `buildArticles` carry the batch key, a fresh id in the
assigned range, and status `queued`. -/
theorem mem_buildArticles :
    ∀ {data : List ArticleData} {bnum fid now idx : Nat} {a : BatchArticle},
      a ∈ buildArticles bnum fid now idx data →
      a.batch_id = bnum ∧ fid ≤ a.id ∧ a.id < fid + data.length ∧
        a.status = .queued := by
  intro data
  induction data with
  | nil => intro bnum fid now idx a h; cases h
  | cons d rest ih =>
    intro bnum fid now idx a h
    rcases List.mem_cons.mp h with rfl | h'
    · refine ⟨rfl, Nat.le_refl _, ?_, rfl⟩
      have : (mkArticle bnum fid now idx d).id = fid := rfl
      rw [this, List.length_cons]
      omega
    · obtain ⟨h1, h2, h3, h4⟩ := ih h'
      refine ⟨h1, by omega, ?_, h4⟩
      rw [List.length_cons]
      omega

/-- Created rows have pairwise-distinct ids. -/
theorem buildArticles_pairwise :
    ∀ (data : List ArticleData) (bnum fid now idx : Nat),
      (buildArticles bnum fid now idx data).Pairwise (fun x y => x.id ≠ y.id) := by
  intro data
  induction data with
  | nil => intro bnum fid now idx; exact List.Pairwise.nil
  | cons d rest ih =>
    intro bnum fid now idx
    refine List.pairwise_cons.mpr ⟨?_, ih bnum (fid + 1) now (idx + 1)⟩
    intro a ha
    obtain ⟨_, h2, _, _⟩ := mem_buildArticles ha
    show (mkArticle bnum fid now idx d).id ≠ a.id
    have : (mkArticle bnum fid now idx d).id = fid := rfl
    omega

/-- The `k`-th created row is built from the `k`-th spec, with consecutive
id and enumeration index. -/
theorem buildArticles_getElem? :
    ∀ (data : List ArticleData) (bnum fid now idx k : Nat) (hk : k < data.length),
      (buildArticles bnum fid now idx data)[k]? =
        some (mkArticle bnum (fid + k) now (idx + k) (data.get ⟨k, hk⟩)) := by
  intro data
  induction data with
  | nil => intro bnum fid now idx k hk; exact absurd hk (Nat.not_lt_zero k)
  | cons d rest ih =>
    intro bnum fid now idx k hk
    cases k with
    | zero => simp [buildArticles]
    | succ j =>
      have hj : j < rest.length := Nat.lt_of_succ_lt_succ hk
      have e1 : fid + 1 + j = fid + (j + 1) := by omega
      have e2 : idx + 1 + j = idx + (j + 1) := by omega
      have := ih bnum (fid + 1) now (idx + 1) j hj
      rw [e1, e2] at this
      simpa [buildArticles] using this

/-- `create_batch` preserves the store invariant: the fresh batch id is above
every existing key, and the new rows are queued with matching counters. -/
theorem inv_create (st : DBState) (now : Nat) (bid uid nm : String)
    (descr ufn : Option String) (cfg : List (String × String))
    (data : List ArticleData) (hInv : Inv st) :
    Inv (create_batch st now bid uid nm descr ufn cfg data).1 := by
  obtain ⟨hBpw, hBlt, hApw, hAlt, hAblt, hCnt⟩ := hInv
  have hnewmem : ∀ a ∈ buildArticles st.next_batch_id st.next_article_id now 0 data,
      a.batch_id = st.next_batch_id ∧ st.next_article_id ≤ a.id ∧
        a.id < st.next_article_id + data.length ∧ a.status = .queued :=
    fun a ha => mem_buildArticles ha
  refine ⟨?_, ?_, ?_, ?_, ?_, ?_⟩
  · dsimp only [create_batch]
    rw [List.pairwise_append]
    refine ⟨hBpw, List.pairwise_singleton _ _, ?_⟩
    intro b hb nb hnb
    rw [List.mem_singleton.mp hnb]
    have := hBlt b hb
    show b.id ≠ st.next_batch_id
    omega
  · intro b hb
    rcases List.mem_append.mp hb with hb' | hb'
    · have := hBlt b hb'
      show b.id < st.next_batch_id + 1
      omega
    · rw [List.mem_singleton.mp hb']
      show st.next_batch_id < st.next_batch_id + 1
      omega
  · dsimp only [create_batch]
    rw [List.pairwise_append]
    refine ⟨hApw, buildArticles_pairwise data _ _ now 0, ?_⟩
    intro a ha a' ha'
    have h1 := hAlt a ha
    have h2 := (hnewmem a' ha').2.1
    omega
  · intro a ha
    rcases List.mem_append.mp ha with ha' | ha'
    · have := hAlt a ha'
      show a.id < st.next_article_id + data.length
      omega
    · have := (hnewmem a ha').2.2.1
      exact this
  · intro a ha
    rcases List.mem_append.mp ha with ha' | ha'
    · have := hAblt a ha'
      show a.batch_id < st.next_batch_id + 1
      omega
    · have := (hnewmem a ha').1
      show a.batch_id < st.next_batch_id + 1
      omega
  · intro b hb
    dsimp only [create_batch, CountsOk] at hb ⊢
    have hzero_old : ∀ (q : ArticleStatus → Bool) (n : Nat), n = st.next_batch_id →
        st.articles.countP (fun a => a.batch_id == n && q a.status) = 0 := by
      intro q n hn
      refine List.countP_eq_zero.mpr ?_
      intro a ha
      have := hAblt a ha
      have hne : (a.batch_id == n) = false := by
        simp only [beq_eq_false_iff_ne, ne_eq]
        omega
      rw [hne, Bool.false_and]
      simp
    rcases List.mem_append.mp hb with hb' | hb'
    · -- an existing batch: the new rows belong to the fresh id, not to it
      obtain ⟨hc1, hc2, hc3⟩ := hCnt b hb'
      have hblt := hBlt b hb'
      have hzero_new : ∀ p : BatchArticle → Bool,
          (∀ a, a.batch_id = st.next_batch_id → p a = false) →
          (buildArticles st.next_batch_id st.next_article_id now 0 data).countP p = 0 := by
        intro p hp
        refine List.countP_eq_zero.mpr ?_
        intro a ha
        rw [hp a (hnewmem a ha).1]
        simp
      have hzc : (buildArticles st.next_batch_id st.next_article_id now 0 data).countP
          (completedOf b.id) = 0 := by
        refine hzero_new _ ?_
        intro a hab
        have hne : (a.batch_id == b.id) = false := by
          simp only [beq_eq_false_iff_ne, ne_eq]
          omega
        unfold completedOf
        rw [hne, Bool.false_and]
      have hzf : (buildArticles st.next_batch_id st.next_article_id now 0 data).countP
          (failedOf b.id) = 0 := by
        refine hzero_new _ ?_
        intro a hab
        have hne : (a.batch_id == b.id) = false := by
          simp only [beq_eq_false_iff_ne, ne_eq]
          omega
        unfold failedOf
        rw [hne, Bool.false_and]
      have hzt : (buildArticles st.next_batch_id st.next_article_id now 0 data).countP
          (articleOfBatch b.id) = 0 := by
        refine hzero_new _ ?_
        intro a hab
        unfold articleOfBatch
        simp only [beq_eq_false_iff_ne, ne_eq]
        omega
      refine ⟨?_, ?_, ?_⟩
      · show b.completed_articles = _
        rw [List.countP_append, hzc, hc1]
        omega
      · show b.failed_articles = _
        rw [List.countP_append, hzf, hc2]
        omega
      · show b.total_articles = _
        rw [List.countP_append, hzt, hc3]
        omega
    · -- the fresh batch
      rw [List.mem_singleton.mp hb']
      dsimp only
      have hold_c : st.articles.countP (completedOf st.next_batch_id) = 0 :=
        hzero_old (fun s => s == .completed) _ rfl
      have hold_f : st.articles.countP (failedOf st.next_batch_id) = 0 :=
        hzero_old (fun s => s == .failed) _ rfl
      have hold_t : st.articles.countP (articleOfBatch st.next_batch_id) = 0 := by
        refine List.countP_eq_zero.mpr ?_
        intro a ha
        have := hAblt a ha
        unfold articleOfBatch
        simp only [beq_iff_eq]
        omega
      have hnew_c : (buildArticles st.next_batch_id st.next_article_id now 0 data).countP
          (completedOf st.next_batch_id) = 0 := by
        refine List.countP_eq_zero.mpr ?_
        intro a ha
        have hq := (hnewmem a ha).2.2.2
        unfold completedOf
        rw [hq]
        rw [show (ArticleStatus.queued == ArticleStatus.completed) = false from rfl,
          Bool.and_false]
        simp
      have hnew_f : (buildArticles st.next_batch_id st.next_article_id now 0 data).countP
          (failedOf st.next_batch_id) = 0 := by
        refine List.countP_eq_zero.mpr ?_
        intro a ha
        have hq := (hnewmem a ha).2.2.2
        unfold failedOf
        rw [hq]
        rw [show (ArticleStatus.queued == ArticleStatus.failed) = false from rfl,
          Bool.and_false]
        simp
      have hnew_t : (buildArticles st.next_batch_id st.next_article_id now 0 data).countP
          (articleOfBatch st.next_batch_id) =
          (buildArticles st.next_batch_id st.next_article_id now 0 data).length := by
        refine List.countP_eq_length.mpr ?_
        intro a ha
        unfold articleOfBatch
        rw [(hnewmem a ha).1]
        simp
      refine ⟨?_, ?_, ?_⟩
      · show (0 : Nat) = _
        rw [List.countP_append, hold_c, hnew_c]
      · show (0 : Nat) = _
        rw [List.countP_append, hold_f, hnew_f]
      · show data.length = _
        rw [List.countP_append, hold_t, hnew_t, buildArticles_length]
        omega

/-- Every pipeline step preserves the store invariant. -/
theorem inv_step {st st' : DBState} (hInv : Inv st) (h : Step st st') : Inv st' := by
  cases h with
  | worker hw =>
    cases hw with
    | create now bid uid nm descr ufn cfg data =>
      exact inv_create st now bid uid nm descr ufn cfg data hInv
    | claim now aid a hfa hq hup =>
      exact inv_update_article hInv hfa (Or.inl ⟨rfl, hq⟩) hup
    | finishItem now aid s em g a hs hfa hp hup =>
      exact inv_update_article hInv hfa (Or.inr ⟨hs, hp⟩) hup
    | cancel now bid uid hc =>
      exact inv_cancel hInv hc
  | setBatch now bnum s em hup =>
    exact inv_update_batch hInv hup

/-- The empty store satisfies the invariant. -/
theorem inv_init : Inv initState := by
  refine ⟨List.Pairwise.nil, ?_, List.Pairwise.nil, ?_, ?_, ?_⟩ <;>
    intro x hx <;> cases hx

/-- Every reachable store satisfies the invariant. -/
theorem inv_of_reachable {st : DBState} (h : Reachable st) : Inv st := by
  induction h with
  | init => exact inv_init
  | step _ hstep ih => exact inv_step ih hstep

/-- After a successful `update_article_status`, looking the article's batch
up again returns the counter-bumped, completion-checked original row. -/
theorem update_article_status_batch {st st' : DBState} {now aid : Nat}
    {s : ArticleStatus} {em : Option String} {g : Option GeneratedContent}
    {a : BatchArticle} {b : ArticleBatch}
    (hfa : findArticle st aid = some a)
    (hb : getBatchNum st a.batch_id = some b)
    (hup : update_article_status st now aid s em g = .ok st') :
    getBatchNum st' a.batch_id = some (checkComplete now (bumpCounters s b)) := by
  obtain ⟨a1, b0, hfa1, hb0, rfl⟩ := update_article_status_ok hup
  rw [hfa] at hfa1
  obtain rfl := Option.some.inj hfa1
  have hbid : b.id = a.batch_id := (getBatchNum_mem_id hb).2
  have hmap : getBatchNum
      { st with
        articles := setArticleById st.articles aid (applyArticleFields now s em g)
        batches := setBatchById st.batches a.batch_id
          (fun b => checkComplete now (bumpCounters s b))
        logs := st.logs ++ [articleLog now aid a.batch_id s em] } a.batch_id =
      ((st.batches.find? (fun b => b.id == a.batch_id)).map
        (fun b => if b.id = a.batch_id then checkComplete now (bumpCounters s b) else b)) := by
    unfold getBatchNum
    dsimp only
    unfold setBatchById
    refine find?_id_map _ ?_
    intro b0
    dsimp only
    by_cases hx : b0.id = a.batch_id
    · rw [if_pos hx, (checkComplete_frame now _).1, (bumpCounters_frame s b0).1]
    · rw [if_neg hx]
  rw [hmap]
  rw [show st.batches.find? (fun b => b.id == a.batch_id) = some b from hb]
  rw [Option.map_some']
  rw [if_pos hbid]

/-- Claim C1: for every reachable store, every batch satisfies
`completed_count + failed_count <= total_items`; and whenever a worker
finish (`update_article_status` with `completed`/`failed`) leaves the
article's batch with `completed + failed = total`, that batch's status has
been set to `completed` (the completion check of operations.py 166-169). -/
theorem c1_batch_counter_invariant :
    ∀ st : DBState, Reachable st →
      (∀ b ∈ st.batches,
        b.completed_articles + b.failed_articles ≤ b.total_articles) ∧
      (∀ (now aid : Nat) (s : ArticleStatus) (em : Option String)
        (g : Option GeneratedContent) (st' : DBState) (a : BatchArticle)
        (b b' : ArticleBatch),
        (s = .completed ∨ s = .failed) →
        findArticle st aid = some a →
        getBatchNum st a.batch_id = some b →
        update_article_status st now aid s em g = .ok st' →
        getBatchNum st' a.batch_id = some b' →
        b'.completed_articles + b'.failed_articles = b'.total_articles →
        b'.status = .completed) := by
  intro st hreach
  obtain ⟨hBpw, hBlt, hApw, hAlt, hAblt, hCnt⟩ := inv_of_reachable hreach
  constructor
  · intro b hb
    obtain ⟨hc1, hc2, hc3⟩ := hCnt b hb
    rw [hc1, hc2, hc3]
    refine countP_two_le _ _ _ st.articles ?_ ?_ ?_
    · intro a _ hcontra
      obtain ⟨h1, h2⟩ := hcontra
      simp only [completedOf, Bool.and_eq_true, beq_iff_eq] at h1
      simp only [failedOf, Bool.and_eq_true, beq_iff_eq] at h2
      rw [h1.2] at h2
      exact absurd h2.2 (by simp)
    · intro a _ h1
      simp only [completedOf, Bool.and_eq_true, beq_iff_eq] at h1
      simp only [articleOfBatch, beq_iff_eq]
      exact h1.1
    · intro a _ h1
      simp only [failedOf, Bool.and_eq_true, beq_iff_eq] at h1
      simp only [articleOfBatch, beq_iff_eq]
      exact h1.1
  · intro now aid s em g st' a b b' hs hfa hb hup hfind heq
    have hbatch := update_article_status_batch hfa hb hup
    rw [hbatch] at hfind
    obtain rfl := Option.some.inj hfind
    unfold checkComplete at heq ⊢
    by_cases hge : (bumpCounters s b).completed_articles + (bumpCounters s b).failed_articles ≥
        (bumpCounters s b).total_articles
    · rw [if_pos hge]
    · rw [if_neg hge] at heq ⊢
      omega

/-- Claim C7: a worker finish (`update_article_status` with status
`completed` or `failed`) moves the article's batch to `completed` whenever
the counters reach `total_articles` — even when `failed_articles` is
positive — and never itself introduces a batch-level `failed` status: the
batch status afterwards is either `completed` or what it was before. -/
theorem c7_item_failures_never_fail_batch :
    ∀ (st st' : DBState) (now aid : Nat) (s : ArticleStatus) (em : Option String)
      (g : Option GeneratedContent) (a : BatchArticle) (b : ArticleBatch),
      (s = .completed ∨ s = .failed) →
      findArticle st aid = some a →
      getBatchNum st a.batch_id = some b →
      update_article_status st now aid s em g = .ok st' →
      ∃ b', getBatchNum st' a.batch_id = some b' ∧
        (b'.total_articles ≤ b'.completed_articles + b'.failed_articles →
          b'.status = .completed) ∧
        (b'.status = .completed ∨ b'.status = b.status) := by
  intro st st' now aid s em g a b hs hfa hb hup
  have hbatch := update_article_status_batch hfa hb hup
  refine ⟨_, hbatch, ?_, ?_⟩
  · intro hge
    unfold checkComplete at hge ⊢
    by_cases hc : (bumpCounters s b).completed_articles +
        (bumpCounters s b).failed_articles ≥ (bumpCounters s b).total_articles
    · rw [if_pos hc]
    · rw [if_neg hc] at hge ⊢
      omega
  · unfold checkComplete
    by_cases hc : (bumpCounters s b).completed_articles +
        (bumpCounters s b).failed_articles ≥ (bumpCounters s b).total_articles
    · rw [if_pos hc]
      exact Or.inl rfl
    · rw [if_neg hc]
      exact Or.inr (bumpCounters_frame s b).2.1

/-- Claim C10: `update_article_status` with `completed`/`failed` runs the
completion check with no look at the batch's current status: whenever the
incremented counters reach `total_articles`, the batch is set to
`completed` and `completed_at` is stamped — in particular also when the
batch is currently `cancelled` or `failed`. -/
theorem c10_completion_check_ignores_batch_status :
    ∀ (st st' : DBState) (now aid : Nat) (s : ArticleStatus) (em : Option String)
      (g : Option GeneratedContent) (a : BatchArticle) (b : ArticleBatch),
      (s = .completed ∨ s = .failed) →
      findArticle st aid = some a →
      getBatchNum st a.batch_id = some b →
      b.total_articles ≤ b.completed_articles + b.failed_articles + 1 →
      update_article_status st now aid s em g = .ok st' →
      ∃ b', getBatchNum st' a.batch_id = some b' ∧
        b'.status = .completed ∧ b'.completed_at = some now := by
  intro st st' now aid s em g a b hs hfa hb htot hup
  have hbatch := update_article_status_batch hfa hb hup
  refine ⟨_, hbatch, ?_⟩
  obtain ⟨hm1, hm2⟩ := bumpCounters_counts s b
  have hbump : (bumpCounters s b).completed_articles +
      (bumpCounters s b).failed_articles =
      b.completed_articles + b.failed_articles + 1 := by
    rw [hm1, hm2]
    rcases hs with rfl | rfl
    · rw [if_pos rfl, if_neg (by simp)]
      omega
    · rw [if_neg (by simp), if_pos rfl]
      omega
  have hge : (bumpCounters s b).completed_articles +
      (bumpCounters s b).failed_articles ≥ (bumpCounters s b).total_articles := by
    rw [hbump, (bumpCounters_frame s b).2.2]
    omega
  unfold checkComplete
  rw [if_pos hge]
  exact ⟨rfl, rfl⟩

/-- Amended claim C2: once a batch's status is terminal AND its counters
have reached `total_items`, no worker-discipline operation (creation,
claim, finish, cancel) touches that batch row at all — but this freeze does
NOT hold for a terminal batch whose counters are still short of the total
(a still-processing item can flip a cancelled batch to `completed`, see the
counterexample), and `update_batch_status` always overwrites. -/
theorem c2_terminal_with_full_counters_frozen :
    ∀ (st st' : DBState) (b : ArticleBatch), Reachable st →
      b ∈ st.batches →
      (b.status = .completed ∨ b.status = .failed ∨ b.status = .cancelled) →
      b.total_articles ≤ b.completed_articles + b.failed_articles →
      WorkerStep st st' →
      ∀ b' ∈ st'.batches, b'.id = b.id → b' = b := by
  intro st st' b hreach hbmem hterm hsum hstep
  obtain ⟨hBpw, hBlt, hApw, hAlt, hAblt, hCnt⟩ := inv_of_reachable hreach
  obtain ⟨hc1, hc2, hc3⟩ := hCnt b hbmem
  have hdisj : ∀ x ∈ st.articles,
      ¬(completedOf b.id x = true ∧ failedOf b.id x = true) := by
    intro x _ hcontra
    obtain ⟨h1, h2⟩ := hcontra
    simp only [completedOf, Bool.and_eq_true, beq_iff_eq] at h1
    simp only [failedOf, Bool.and_eq_true, beq_iff_eq] at h2
    rw [h1.2] at h2
    exact absurd h2.2 (by simp)
  have himp1 : ∀ x ∈ st.articles, completedOf b.id x = true →
      articleOfBatch b.id x = true := by
    intro x _ h1
    simp only [completedOf, Bool.and_eq_true, beq_iff_eq] at h1
    simp only [articleOfBatch, beq_iff_eq]
    exact h1.1
  have himp2 : ∀ x ∈ st.articles, failedOf b.id x = true →
      articleOfBatch b.id x = true := by
    intro x _ h1
    simp only [failedOf, Bool.and_eq_true, beq_iff_eq] at h1
    simp only [articleOfBatch, beq_iff_eq]
    exact h1.1
  have hge : st.articles.countP (articleOfBatch b.id) ≤
      st.articles.countP (completedOf b.id) + st.articles.countP (failedOf b.id) := by
    rw [← hc1, ← hc2, ← hc3]
    exact hsum
  have hall := forall_mem_of_countP_ge _ _ _ st.articles hdisj himp1 himp2 hge
  -- every article of batch `b` is already completed or failed
  have hterminal_items : ∀ x ∈ st.articles, x.batch_id = b.id →
      x.status = ArticleStatus.completed ∨ x.status = ArticleStatus.failed := by
    intro x hx hxb
    have := hall x hx (by simp only [articleOfBatch, beq_iff_eq]; exact hxb)
    rcases this with h | h
    · simp only [completedOf, Bool.and_eq_true, beq_iff_eq] at h
      exact Or.inl h.2
    · simp only [failedOf, Bool.and_eq_true, beq_iff_eq] at h
      exact Or.inr h.2
  cases hstep with
  | create now bid uid nm descr ufn cfg data =>
    intro b' hb' hid
    rcases List.mem_append.mp hb' with hb'' | hb''
    · exact eq_of_pairwise_key ArticleBatch.id hBpw hb'' hbmem hid
    · exfalso
      rw [List.mem_singleton.mp hb''] at hid
      have : st.next_batch_id = b.id := hid
      have := hBlt b hbmem
      omega
  | claim now aid a hfa hq hup =>
    obtain ⟨hamem, haid⟩ := findArticle_mem_id hfa
    obtain ⟨a1, b0, hfa1, hb0, rfl⟩ := update_article_status_ok hup
    rw [hfa] at hfa1
    obtain rfl := Option.some.inj hfa1
    by_cases hx : a.batch_id = b.id
    · exfalso
      rcases hterminal_items a hamem hx with h | h <;> rw [hq] at h <;> exact absurd h (by simp)
    · intro b' hb' hid
      obtain ⟨b2, hb2mem, rfl⟩ := List.mem_map.mp hb'
      have hb2id : ((fun b => if b.id = a.batch_id then
          checkComplete now (bumpCounters ArticleStatus.processing b) else b) b2).id
          = b2.id := by
        dsimp only
        by_cases hy : b2.id = a.batch_id
        · rw [if_pos hy, (checkComplete_frame now _).1, (bumpCounters_frame _ b2).1]
        · rw [if_neg hy]
      rw [hb2id] at hid
      obtain rfl := eq_of_pairwise_key ArticleBatch.id hBpw hb2mem hbmem hid
      dsimp only
      rw [if_neg (fun hh => hx (by omega))]
  | finishItem now aid s em g a hs hfa hp hup =>
    obtain ⟨hamem, haid⟩ := findArticle_mem_id hfa
    obtain ⟨a1, b0, hfa1, hb0, rfl⟩ := update_article_status_ok hup
    rw [hfa] at hfa1
    obtain rfl := Option.some.inj hfa1
    by_cases hx : a.batch_id = b.id
    · exfalso
      rcases hterminal_items a hamem hx with h | h <;> rw [hp] at h <;> exact absurd h (by simp)
    · intro b' hb' hid
      obtain ⟨b2, hb2mem, rfl⟩ := List.mem_map.mp hb'
      have hb2id : ((fun b => if b.id = a.batch_id then
          checkComplete now (bumpCounters s b) else b) b2).id = b2.id := by
        dsimp only
        by_cases hy : b2.id = a.batch_id
        · rw [if_pos hy, (checkComplete_frame now _).1, (bumpCounters_frame s b2).1]
        · rw [if_neg hy]
      rw [hb2id] at hid
      obtain rfl := eq_of_pairwise_key ArticleBatch.id hBpw hb2mem hbmem hid
      dsimp only
      rw [if_neg (fun hh => hx (by omega))]
  | cancel now bid uid hcan =>
    obtain ⟨bc, hbc, hbcuid, hbccomp, rfl⟩ := cancel_batch_ok hcan
    obtain ⟨hbcmem, _⟩ := get_batch_mem_id hbc
    by_cases hx : bc.id = b.id
    · exfalso
      obtain rfl := eq_of_pairwise_key ArticleBatch.id hBpw hbcmem hbmem hx
      rcases hterm with h | h | h <;>
        simp [ArticleBatch.is_complete, h] at hbccomp
    · intro b' hb' hid
      obtain ⟨b2, hb2mem, rfl⟩ := List.mem_map.mp hb'
      have hb2id : ((fun b0 => if b0.id = bc.id then
          { b0 with status := BatchStatus.cancelled, completed_at := some now }
          else b0) b2).id = b2.id := by
        dsimp only
        by_cases hy : b2.id = bc.id
        · rw [if_pos hy]
        · rw [if_neg hy]
      rw [hb2id] at hid
      obtain rfl := eq_of_pairwise_key ArticleBatch.id hBpw hb2mem hbmem hid
      dsimp only
      rw [if_neg (fun hh => hx (by omega))]

/-! ### Concrete stores used by counterexamples and witnesses -/

/-- Placeholder batch row for `Option.getD`. -/
def junkBatch : ArticleBatch :=
  { id := 0, batch_id := "", user_id := "", name := "", description := none,
    uploaded_filename := none, status := .pending, total_articles := 0,
    completed_articles := 0, failed_articles := 0, created_at := none,
    started_at := none, completed_at := none, default_config := [] }

/-- Placeholder article row for `Option.getD`. -/
def junkArticle : BatchArticle :=
  { id := 0, batch_id := 0, topic := "", keywords := "", tone := "",
    word_count := 0, custom_persona := "", link_count := 0,
    use_inline_links := 0, use_apa_style := 0, status := .queued,
    processing_attempts := 0, error_message := none, generated_title := none,
    generated_content := none, generated_meta_description := none,
    word_count_actual := none, queued_at := none, started_at := none,
    completed_at := none, processing_duration_seconds := none, row_index := 0,
    custom_metadata := [] }

/-- Unwrap a store operation known to succeed. -/
def okOr {e : Type} (d : DBState) : Except e DBState → DBState
  | .ok s => s
  | .error _ => d

/-- A minimal one-topic item spec. -/
def dTopic : ArticleData := { topic := some "t" }

deriving instance DecidableEq for Except

/-- One-article batch created in the empty store. -/
def cexS1 : DBState := (create_batch initState 0 "b1" "u" "n" none none [] [dTopic]).1

/-- The worker marks the batch processing. -/
def cexS2 : DBState := okOr initState (update_batch_status cexS1 1 1 .processing none)

/-- The queued article of `cexS2`. -/
def cexA2 : BatchArticle := (findArticle cexS2 1).getD junkArticle

/-- The worker claims the article. -/
def cexS3 : DBState := okOr initState (update_article_status cexS2 2 1 .processing none none)

/-- The user cancels while the article is in flight. -/
def cexS4 : DBState := okOr initState (cancel_batch cexS3 3 "b1" "u")

/-- The in-flight article of `cexS4`. -/
def cexA4 : BatchArticle := (findArticle cexS4 1).getD junkArticle

/-- The in-flight article finishes after the cancellation. -/
def cexS5 : DBState := okOr initState (update_article_status cexS4 4 1 .completed none none)

/-- A direct `update_batch_status` overwrite of the completed batch. -/
def cexS6 : DBState := okOr initState (update_batch_status cexS5 5 1 .pending none)

/-- A later creation step, taken from `cexS5`. -/
def cexS7 : DBState := (create_batch cexS5 6 "b2" "u" "n" none none [] []).1

/-- Batch row 1 as of `cexS5`. -/
def cexB5 : ArticleBatch := (getBatchNum cexS5 1).getD junkBatch

/-- Batch row 1 as of `cexS7`. -/
def cexB7 : ArticleBatch := (getBatchNum cexS7 1).getD junkBatch

/-- The cancellation trace `cexS1 … cexS5` is reachable. -/
theorem cexS5_reachable : Reachable cexS5 := by
  have h1 : Reachable cexS1 :=
    Reachable.step Reachable.init
      (Step.worker (WorkerStep.create 0 "b1" "u" "n" none none [] [dTopic]))
  have h2 : Reachable cexS2 :=
    Reachable.step h1 (Step.setBatch 1 1 .processing none (by decide))
  have h3 : Reachable cexS3 :=
    Reachable.step h2
      (Step.worker (WorkerStep.claim 2 1 cexA2 (by decide) (by decide) (by decide)))
  have h4 : Reachable cexS4 :=
    Reachable.step h3 (Step.worker (WorkerStep.cancel 3 "b1" "u" (by decide)))
  exact Reachable.step h4
    (Step.worker (WorkerStep.finishItem 4 1 .completed none none cexA4
      (Or.inl rfl) (by decide) (by decide) (by decide)))

/-- Claim C2 counterexample: terminal batch statuses are NOT final. In the
reachable trace `cexS1 … cexS5`, the batch is `cancelled` in `cexS4`; the
still-processing article then finishes and the completion check flips the
batch to `completed` in `cexS5`; a direct `update_batch_status` call then
overwrites `completed` with `pending` in `cexS6`. -/
theorem c2_counterexample :
    Reachable cexS4 ∧
    (getBatchNum cexS4 1).map ArticleBatch.status = some BatchStatus.cancelled ∧
    update_article_status cexS4 4 1 .completed none none = .ok cexS5 ∧
    (getBatchNum cexS5 1).map ArticleBatch.status = some BatchStatus.completed ∧
    update_batch_status cexS5 5 1 .pending none = .ok cexS6 ∧
    (getBatchNum cexS6 1).map ArticleBatch.status = some BatchStatus.pending := by
  refine ⟨?_, by decide, by decide, by decide, by decide, by decide⟩
  have h1 : Reachable cexS1 :=
    Reachable.step Reachable.init
      (Step.worker (WorkerStep.create 0 "b1" "u" "n" none none [] [dTopic]))
  have h2 : Reachable cexS2 :=
    Reachable.step h1 (Step.setBatch 1 1 .processing none (by decide))
  have h3 : Reachable cexS3 :=
    Reachable.step h2
      (Step.worker (WorkerStep.claim 2 1 cexA2 (by decide) (by decide) (by decide)))
  exact Reachable.step h3 (Step.worker (WorkerStep.cancel 3 "b1" "u" (by decide)))

/-- Witness for the amended claim C2, at the completed batch of `cexS5`
(counters 1+0 of total 1): the next worker-discipline step (a creation)
leaves batch row 1 untouched. -/
theorem c2_amended_witness : cexB7 = cexB5 := by
  have h := c2_terminal_with_full_counters_frozen cexS5 cexS7 cexB5
    cexS5_reachable (by decide) (by decide) (by decide)
    (WorkerStep.create 6 "b2" "u" "n" none none [] [])
  exact h cexB7 (by decide) (by decide)

/-- One-article batch cancelled before the worker ever saw it. -/
def c3S1 : DBState := (create_batch initState 0 "b1" "u" "n" none none [] [dTopic]).1

/-- The batch of `c3S1` after `cancel_batch`: status `cancelled`, its only
article `skipped`. -/
def c3S2 : DBState := okOr initState (cancel_batch c3S1 1 "b1" "u")

/-- Claim C3 evaluated at the failing input: when the inner batch-processing
routine starts on a batch that is already `cancelled`, it does NOT detect
the mismatch — it overwrites the status with `processing` (and, because all
queued items were skipped at cancellation, claims no items and leaves every
article row unchanged). -/
theorem c3_process_batch_overwrites_cancelled :
    (getBatchNum c3S2 1).map ArticleBatch.status = some BatchStatus.cancelled ∧
    (getBatchNum (process_batch (fun _ => GenResult.failure "boom") 2 3 c3S2 "b1") 1).map
      ArticleBatch.status = some BatchStatus.processing ∧
    (process_batch (fun _ => GenResult.failure "boom") 2 3 c3S2 "b1").articles =
      c3S2.articles := by
  refine ⟨by decide, by decide, by decide⟩

/-- Claim C4 counterexample: `create_batch` called with an empty
specification list does not fail — it persists a batch row with
`status=pending`, `total_items=0` and no article rows. -/
theorem c4_counterexample :
    (create_batch initState 0 "b0" "u" "n" none none [] []).1.batches.length = 1 ∧
    (create_batch initState 0 "b0" "u" "n" none none [] []).2.status =
      BatchStatus.pending ∧
    (create_batch initState 0 "b0" "u" "n" none none [] []).2.total_articles = 0 ∧
    (create_batch initState 0 "b0" "u" "n" none none [] []).1.articles = [] := by
  refine ⟨by decide, by decide, by decide, by decide⟩

/-- Amended claim C4: emptiness is rejected only by the upload endpoint
(HTTP 400 before `create_batch` is reached); `create_batch` itself accepts
an empty list and persists a pending batch with `total_items = 0`, zero
counters and no article rows. -/
theorem c4_amended :
    (∀ (st : DBState) (now : Nat) (bid uid nm : String) (descr ufn : Option String)
      (cfg : List (String × String)),
      (create_batch st now bid uid nm descr ufn cfg []).2.status = BatchStatus.pending ∧
      (create_batch st now bid uid nm descr ufn cfg []).2.total_articles = 0 ∧
      (create_batch st now bid uid nm descr ufn cfg []).2.completed_articles = 0 ∧
      (create_batch st now bid uid nm descr ufn cfg []).2.failed_articles = 0 ∧
      (create_batch st now bid uid nm descr ufn cfg []).1.articles = st.articles ∧
      (create_batch st now bid uid nm descr ufn cfg []).1.batches =
        st.batches ++ [(create_batch st now bid uid nm descr ufn cfg []).2]) ∧
    (∀ rows : List (Option String), rows.filter validTopicCell = [] →
      validate_upload_rows rows = .error .noValidArticles) := by
  constructor
  · intro st now bid uid nm descr ufn cfg
    refine ⟨rfl, rfl, rfl, rfl, ?_, rfl⟩
    show st.articles ++ buildArticles st.next_batch_id st.next_article_id now 0 [] =
      st.articles
    rw [show buildArticles st.next_batch_id st.next_article_id now 0 [] = [] from rfl]
    exact List.append_nil st.articles
  · intro rows hrows
    unfold validate_upload_rows
    rw [hrows]
    rfl

/-- Witness for the amended claim C4 at a concrete store and row list. -/
theorem c4_amended_witness :
    (create_batch initState 7 "w" "u" "n" none none [] []).2.total_articles = 0 ∧
    validate_upload_rows [none, some ""] = .error .noValidArticles := by
  have h := c4_amended
  exact ⟨(h.1 initState 7 "w" "u" "n" none none []).2.1,
    h.2 [none, some ""] (by decide)⟩

/-- Claim C5: the three error cases of `cancel_batch` — unknown batch id,
owner mismatch, batch already terminal (`is_complete`) — each raise the
corresponding error; an error return carries no new store, so no batch or
article state is mutated in these cases. -/
theorem c5_cancel_error_cases :
    ∀ (st : DBState) (now : Nat) (bid uid : String),
      (get_batch st bid = none → cancel_batch st now bid uid = .error .notFound) ∧
      (∀ b, get_batch st bid = some b → b.user_id ≠ uid →
        cancel_batch st now bid uid = .error .unauthorized) ∧
      (∀ b, get_batch st bid = some b → b.user_id = uid → b.is_complete = true →
        cancel_batch st now bid uid = .error .invalidState) := by
  intro st now bid uid
  refine ⟨?_, ?_, ?_⟩
  · intro h
    simp only [cancel_batch, h]
  · intro b h hne
    simp only [cancel_batch, h]
    rw [if_pos hne]
  · intro b h he hc
    simp only [cancel_batch, h]
    rw [if_neg (fun hh => hh he), if_pos hc]

/-- Claim C6: a successful `cancel_batch` transitions exactly the queued
articles of the batch to `skipped` — touching no other field of any
article, and leaving `processing`/`completed`/`failed` articles entirely
unchanged — sets the batch status to `cancelled` with `completed_at`
stamped, and appends one WARNING log entry. -/
theorem c6_cancel_success_frame :
    ∀ (st : DBState) (now : Nat) (bid uid : String) (b : ArticleBatch),
      get_batch st bid = some b → b.user_id = uid → b.is_complete = false →
      ∃ st', cancel_batch st now bid uid = .ok st' ∧
        st'.articles.length = st.articles.length ∧
        (∀ i (h1 : i < st.articles.length) (h2 : i < st'.articles.length),
          st'.articles.get ⟨i, h2⟩ =
            (if (st.articles.get ⟨i, h1⟩).batch_id = b.id ∧
                (st.articles.get ⟨i, h1⟩).status = ArticleStatus.queued then
              { (st.articles.get ⟨i, h1⟩) with status := ArticleStatus.skipped }
            else st.articles.get ⟨i, h1⟩)) ∧
        st'.batches.length = st.batches.length ∧
        (∀ i (h1 : i < st.batches.length) (h2 : i < st'.batches.length),
          st'.batches.get ⟨i, h2⟩ =
            (if (st.batches.get ⟨i, h1⟩).id = b.id then
              { (st.batches.get ⟨i, h1⟩) with
                  status := BatchStatus.cancelled
                  completed_at := some now }
            else st.batches.get ⟨i, h1⟩)) ∧
        st'.logs = st.logs ++ [cancelLog now b.id uid] ∧
        (cancelLog now b.id uid).level = "WARNING" := by
  intro st now bid uid b hb huid hcomp
  have hok : cancel_batch st now bid uid = .ok
      { st with
        articles := st.articles.map (cancelArticleUpdate b.id)
        batches := setBatchById st.batches b.id
          (fun b0 => { b0 with status := .cancelled, completed_at := some now })
        logs := st.logs ++ [cancelLog now b.id uid] } := by
    simp only [cancel_batch, hb]
    rw [if_neg (fun hh => hh huid), if_neg (by simp [hcomp])]
  refine ⟨_, hok, ?_, ?_, ?_, ?_, rfl, rfl⟩
  · exact List.length_map st.articles _
  · intro i h1 h2
    simp only [List.get_eq_getElem, List.getElem_map]
    rfl
  · show (setBatchById st.batches b.id _).length = _
    unfold setBatchById
    exact List.length_map st.batches _
  · intro i h1 h2
    show (setBatchById st.batches b.id _).get ⟨i, h2⟩ = _
    unfold setBatchById
    simp only [List.get_eq_getElem, List.getElem_map]

/-- `minByRow` of a non-empty list never returns `none`. -/
theorem minByRow_eq_none : ∀ l : List BatchArticle, minByRow l = none ↔ l = [] := by
  intro l
  cases l with
  | nil => simp [minByRow]
  | cons x xs =>
    simp only [minByRow]
    cases minByRow xs with
    | none => simp
    | some m =>
      by_cases hle : x.row_index ≤ m.row_index <;> simp [hle]

/-- `minByRow` returns a member whose `row_index` is minimal. -/
theorem minByRow_spec :
    ∀ (l : List BatchArticle) (a : BatchArticle), minByRow l = some a →
      a ∈ l ∧ ∀ c ∈ l, a.row_index ≤ c.row_index := by
  intro l
  induction l with
  | nil => intro a h; cases h
  | cons x xs ih =>
    intro a h
    unfold minByRow at h
    cases hm : minByRow xs with
    | none =>
      rw [hm] at h
      obtain rfl := Option.some.inj h
      have hnil : xs = [] := (minByRow_eq_none xs).mp hm
      subst hnil
      refine ⟨List.mem_cons_self _ _, ?_⟩
      intro c hc
      rcases List.mem_cons.mp hc with rfl | hc'
      · exact Nat.le_refl _
      · cases hc'
    | some m =>
      rw [hm] at h
      dsimp only at h
      by_cases hle : x.row_index ≤ m.row_index
      · rw [if_pos hle] at h
        obtain rfl := Option.some.inj h
        refine ⟨List.mem_cons_self _ _, ?_⟩
        intro c hc
        rcases List.mem_cons.mp hc with rfl | hc'
        · exact Nat.le_refl _
        · have := (ih m hm).2 c hc'
          omega
      · rw [if_neg hle] at h
        obtain rfl := Option.some.inj h
        obtain ⟨hmem, hmin⟩ := ih m hm
        refine ⟨List.mem_cons_of_mem _ hmem, ?_⟩
        intro c hc
        rcases List.mem_cons.mp hc with rfl | hc'
        · omega
        · exact hmin c hc'

/-- Claim C8: `get_next_queued_article` returns no article exactly when the
batch has no queued article, and otherwise an article of the batch in
status `queued` whose `row_index` is minimal among the batch's queued
articles — so repeated claiming walks queued items in ascending
`row_index`. -/
theorem c8_next_queued_is_min :
    ∀ (st : DBState) (bnum : Nat),
      ((∀ a ∈ st.articles, ¬(a.batch_id = bnum ∧ a.status = ArticleStatus.queued)) →
        get_next_queued_article st bnum = none) ∧
      (∀ a, get_next_queued_article st bnum = some a →
        a ∈ st.articles ∧ a.batch_id = bnum ∧ a.status = .queued ∧
        ∀ c ∈ st.articles, c.batch_id = bnum → c.status = .queued →
          a.row_index ≤ c.row_index) := by
  intro st bnum
  constructor
  · intro hnone
    unfold get_next_queued_article
    have hfil : st.articles.filter
        (fun a => a.batch_id == bnum && a.status == ArticleStatus.queued) = [] := by
      rw [List.filter_eq_nil_iff]
      intro a ha hcontra
      simp only [Bool.and_eq_true, beq_iff_eq] at hcontra
      exact hnone a ha ⟨hcontra.1, hcontra.2⟩
    rw [hfil]
    rfl
  · intro a h
    unfold get_next_queued_article at h
    obtain ⟨hmem, hmin⟩ := minByRow_spec _ a h
    rw [List.mem_filter] at hmem
    obtain ⟨hmema, hcond⟩ := hmem
    simp only [Bool.and_eq_true, beq_iff_eq] at hcond
    refine ⟨hmema, hcond.1, hcond.2, ?_⟩
    intro c hc hcb hcq
    refine hmin c ?_
    rw [List.mem_filter]
    refine ⟨hc, ?_⟩
    simp only [Bool.and_eq_true, beq_iff_eq]
    exact ⟨hcb, hcq⟩

/-- Claim C9: `create_batch` on a non-empty list of N specs persists a
pending batch with `total_items = N` and zero counters, plus exactly N
article rows appended in input order, the k-th carrying `row_index = k+1`,
status `queued`, the new batch's key, and the k-th spec's parameters with
the source defaults applied. -/
theorem c9_create_batch_roundtrip :
    ∀ (st : DBState) (now : Nat) (bid uid nm : String) (descr ufn : Option String)
      (cfg : List (String × String)) (data : List ArticleData),
      data ≠ [] →
      (create_batch st now bid uid nm descr ufn cfg data).2.status = BatchStatus.pending ∧
      (create_batch st now bid uid nm descr ufn cfg data).2.total_articles = data.length ∧
      (create_batch st now bid uid nm descr ufn cfg data).2.completed_articles = 0 ∧
      (create_batch st now bid uid nm descr ufn cfg data).2.failed_articles = 0 ∧
      (create_batch st now bid uid nm descr ufn cfg data).1.batches =
        st.batches ++ [(create_batch st now bid uid nm descr ufn cfg data).2] ∧
      (create_batch st now bid uid nm descr ufn cfg data).1.articles.length =
        st.articles.length + data.length ∧
      (∀ k, ∀ hk : k < data.length, ∃ art,
        ((create_batch st now bid uid nm descr ufn cfg data).1.articles)[st.articles.length + k]? =
          some art ∧
        art.row_index = k + 1 ∧
        art.status = ArticleStatus.queued ∧
        art.batch_id = (create_batch st now bid uid nm descr ufn cfg data).2.id ∧
        art.topic = (data.get ⟨k, hk⟩).topic.getD "" ∧
        art.keywords = (data.get ⟨k, hk⟩).keywords.getD "" ∧
        art.tone = (data.get ⟨k, hk⟩).tone.getD "professional" ∧
        art.word_count = (data.get ⟨k, hk⟩).word_count.getD 1000 ∧
        art.custom_persona = (data.get ⟨k, hk⟩).custom_persona.getD "" ∧
        art.link_count = (data.get ⟨k, hk⟩).link_count.getD 5) := by
  intro st now bid uid nm descr ufn cfg data hne
  refine ⟨rfl, rfl, rfl, rfl, rfl, ?_, ?_⟩
  · show (st.articles ++ buildArticles st.next_batch_id st.next_article_id now 0 data).length = _
    rw [List.length_append, buildArticles_length]
  · intro k hk
    refine ⟨mkArticle st.next_batch_id (st.next_article_id + k) now k (data.get ⟨k, hk⟩),
      ?_, rfl, rfl, rfl, rfl, rfl, rfl, rfl, rfl, rfl⟩
    show (st.articles ++
        buildArticles st.next_batch_id st.next_article_id now 0 data)[st.articles.length + k]? = _
    rw [List.getElem?_append_right (by omega)]
    have hsub : st.articles.length + k - st.articles.length = k := by omega
    rw [hsub]
    have hb := buildArticles_getElem? data st.next_batch_id st.next_article_id now 0 k hk
    rw [Nat.zero_add] at hb
    exact hb

/-! ### Witnesses -/

/-- One-article batch used by several witnesses. -/
def w1S : DBState := (create_batch initState 0 "w1" "u" "n" none none [] [dTopic]).1

/-- The batch row of `w1S`. -/
def w1B : ArticleBatch := (getBatchNum w1S 1).getD junkBatch

/-- The article row of `w1S`. -/
def w1A : BatchArticle := (findArticle w1S 1).getD junkArticle

/-- `w1S` after finishing its article as `completed`. -/
def w1S2 : DBState := okOr initState (update_article_status w1S 1 1 .completed none none)

/-- The batch row of `w1S2`. -/
def w1B2 : ArticleBatch := (getBatchNum w1S2 1).getD junkBatch

/-- Witness for claim C1 at a concrete reachable one-article store: the
invariant holds, and the finish that brings the counters to the total sets
the batch status to completed. -/
theorem c1_witness :
    w1B.completed_articles + w1B.failed_articles ≤ w1B.total_articles ∧
    w1B2.status = BatchStatus.completed := by
  have hreach : Reachable w1S :=
    Reachable.step Reachable.init
      (Step.worker (WorkerStep.create 0 "w1" "u" "n" none none [] [dTopic]))
  have h := c1_batch_counter_invariant w1S hreach
  refine ⟨h.1 w1B (by decide), ?_⟩
  exact h.2 1 1 .completed none none w1S2 w1A w1B w1B2 (Or.inl rfl)
    (by decide) (by decide) (by decide) (by decide) (by decide)

/-- `w1S` after finishing its article as `failed`. -/
def w7S : DBState := okOr initState (update_article_status w1S 1 1 .failed (some "x") none)

/-- The batch row of `w7S`. -/
def w7B : ArticleBatch := (getBatchNum w7S 1).getD junkBatch

/-- Witness for claim C7: a batch whose single article failed ends in
status `completed` with `failed_articles = 1`. -/
theorem c7_witness :
    w7B.status = BatchStatus.completed ∧ w7B.failed_articles = 1 := by
  obtain ⟨b', hfind, hcomp, _⟩ := c7_item_failures_never_fail_batch
    w1S w7S 1 1 .failed (some "x") none w1A w1B (Or.inr rfl)
    (by decide) (by decide) (by decide)
  have he : getBatchNum w7S w1A.batch_id = some w7B := by decide
  rw [hfind] at he
  obtain rfl := Option.some.inj he
  exact ⟨hcomp (by decide), by decide⟩

/-- The cancelled batch row of `cexS4`. -/
def cexB4 : ArticleBatch := (getBatchNum cexS4 1).getD junkBatch

/-- Witness for claim C10 at the cancelled batch of `cexS4`: finishing the
in-flight article completes the cancelled batch and stamps `completed_at`. -/
theorem c10_witness :
    (getBatchNum cexS4 1).map ArticleBatch.status = some BatchStatus.cancelled ∧
    cexB5.status = BatchStatus.completed ∧ cexB5.completed_at = some 4 := by
  obtain ⟨b', hfind, hstat, hat⟩ := c10_completion_check_ignores_batch_status
    cexS4 cexS5 4 1 .completed none none cexA4 cexB4 (Or.inl rfl)
    (by decide) (by decide) (by decide) (by decide)
  have he : getBatchNum cexS5 cexA4.batch_id = some cexB5 := by decide
  rw [hfind] at he
  obtain rfl := Option.some.inj he
  exact ⟨by decide, hstat, hat⟩

/-- `w1S` with its batch pushed to a terminal status directly. -/
def w5T : DBState := okOr initState (update_batch_status w1S 1 1 .completed none)

/-- The batch row of `w1S` looked up by its string id. -/
def w5B : ArticleBatch := (get_batch w1S "w1").getD junkBatch

/-- The terminal batch row of `w5T`. -/
def w5TB : ArticleBatch := (get_batch w5T "w1").getD junkBatch

/-- Witness for claim C5: the three error cases at concrete stores. -/
theorem c5_witness :
    cancel_batch initState 0 "nope" "u" = .error .notFound ∧
    cancel_batch w1S 1 "w1" "mallory" = .error .unauthorized ∧
    cancel_batch w5T 2 "w1" "u" = .error .invalidState := by
  refine ⟨(c5_cancel_error_cases initState 0 "nope" "u").1 (by decide),
    (c5_cancel_error_cases w1S 1 "w1" "mallory").2.1 w5B (by decide) (by decide),
    (c5_cancel_error_cases w5T 2 "w1" "u").2.2 w5TB (by decide) (by decide) (by decide)⟩

/-- Witness for claim C6: cancelling the pending one-article batch of `w1S`
succeeds and appends exactly one log entry; the skipped article count
matches. -/
theorem c6_witness :
    (okOr initState (cancel_batch w1S 3 "w1" "u")).logs.length = w1S.logs.length + 1 ∧
    (okOr initState (cancel_batch w1S 3 "w1" "u")).articles.length =
      w1S.articles.length := by
  obtain ⟨st', hok, hlen, _, _, _, hlogs, _⟩ :=
    c6_cancel_success_frame w1S 3 "w1" "u" w5B (by decide) (by decide) (by decide)
  have hred : okOr initState (cancel_batch w1S 3 "w1" "u") = st' := by
    rw [hok]
    rfl
  constructor
  · rw [hred, hlogs, List.length_append]
    rfl
  · rw [hred, hlen]

/-- Witness for claim C8: the empty store has no next queued article, and
the queued article of `w1S` is returned with minimal row index. -/
theorem c8_witness :
    get_next_queued_article initState 5 = none ∧
    w1A.status = ArticleStatus.queued := by
  refine ⟨(c8_next_queued_is_min initState 5).1 ?_, ?_⟩
  · intro a ha
    exact absurd ha (by simp [initState])
  · have h := (c8_next_queued_is_min w1S 1).2 w1A (by decide)
    exact h.2.2.1

/-- Witness for claim C9 at a one-spec creation. -/
theorem c9_witness :
    (create_batch initState 0 "w9" "u" "n" none none [] [dTopic]).2.total_articles = 1 ∧
    (create_batch initState 0 "w9" "u" "n" none none [] [dTopic]).2.status =
      BatchStatus.pending := by
  have h := c9_create_batch_roundtrip initState 0 "w9" "u" "n" none none [] [dTopic]
    (by decide)
  exact ⟨h.2.1, h.1⟩

end Travel
